import Mathlib

/-!
Scion2D asset manager: a shallow embedding

This development embeds `SCION_RESOURCES::AssetManager`
(`SCION_CORE/src/Resources/AssetManager.cpp`) as pure functions over an explicit
state and proves properties of it. It also embeds the startup path of
`SCION_EDITOR::Application::Initialize` (`SCION_EDITOR/src/Application.cpp`) that leads to
the default font, and `SCION_FILESYSTEM::FileProcessor::SeparateParams`
(`ScionFilesystem/Process/FileProcessor.h`).

Conventions of the embedding:

* a `std::shared_ptr<T>` is an `Option T`; `none` is `nullptr`;
* every member function takes the manager state and returns an `Outcome`: the value
  returned, the state afterwards, the calls made to external collaborators (loaders,
  SDL mixer, prefab cleanup), and whether the default-case assertion was reached;
* the external collaborators are a record of functions passed to each call, so two
  calls may see different loader behaviour;
* `SCION_ERROR` only writes a diagnostic line and is left out.
-/

namespace SCION_RESOURCES

/-! ## The associative container -/

/-- Modelled from the spec: the name-to-resource mapping of one category (the member
declarations live in `AssetManager.h`, which is not among the sources). An association
list read from the front; every operation below keeps keys unique when they are unique
in its argument. -/
abbrev StdMap (β : Type) := List (String × β)

namespace StdMap

variable {β : Type}

/-- The `find` member: the mapped value of the first entry with key `key`, `none` for `end()`. -/
def find : StdMap β → String → Option β
  | [], _ => none
  | (k, v) :: rest, key => if k = key then some v else find rest key

/-- The `contains` member. -/
def contains (m : StdMap β) (key : String) : Bool :=
  (find m key).isSome

/-- The `emplace` / `insert` member: adds the pair unless the key is taken; the flag tells
whether the insertion happened. -/
def emplace (m : StdMap β) (key : String) (v : β) : StdMap β × Bool :=
  if contains m key then (m, false) else (m ++ [(key, v)], true)

/-- The `std::erase_if` algorithm: removes the entries satisfying `pred` and returns how many
were removed. -/
def erase_if (m : StdMap β) (pred : String × β → Bool) : StdMap β × Nat :=
  (m.filter (fun pair => !pred pair), (m.filter pred).length)

/-- The `erase(key)` member: removes the entries with that key and returns how many were
removed. -/
def erase (m : StdMap β) (key : String) : StdMap β × Nat :=
  (m.filter (fun pair => !decide (pair.1 = key)), (m.filter (fun pair => decide (pair.1 = key))).length)

/-- The keys of the map, in storage order. -/
def keys (m : StdMap β) : List String :=
  m.map Prod.fst

end StdMap

/-! ## Resources -/

/-- Modelled from the spec: the filtering modes `SCION_RENDERING::Texture::TextureType` (rendering
library, not among the sources): pixel-art and blended, the two the manager names. -/
inductive TextureType where
  | PIXEL
  | BLENDED
deriving DecidableEq, Repr

/-- Modelled from the spec: a texture resource (declared in the rendering library, not among
the sources): an identity, the pixel-filtering mode, the tileset flag and the editor-only flag. -/
structure Texture where
  id : Nat
  type : TextureType
  bTileset : Bool
  bEditorTexture : Bool
deriving DecidableEq, Repr

/-- The `IsTileset` accessor. -/
def Texture.IsTileset (t : Texture) : Bool := t.bTileset

/-- The `IsEditorTexture` accessor. -/
def Texture.IsEditorTexture (t : Texture) : Bool := t.bEditorTexture

/-- Modelled from the spec: a font resource, a glyph atlas at a fixed point size. -/
structure Font where
  id : Nat
  fontSize : ℚ
deriving DecidableEq

/-- Modelled from the spec: a shader resource, a linked vertex+fragment program. -/
structure Shader where
  program : Nat
deriving DecidableEq, Repr

/-- The decoded stream behind a `Mix_Music*` of SDL_mixer. -/
structure Mix_Music where
  id : Nat
deriving DecidableEq, Repr

/-- The decoded chunk behind a `Mix_Chunk*` of SDL_mixer; `alen` is its byte length, a 32-bit
unsigned integer in the source. -/
structure Mix_Chunk where
  id : Nat
  alen : Nat
deriving DecidableEq, Repr

/-- Modelled from the spec: the `SCION_SOUNDS::SoundParams` aggregate (sounds library, not among
the sources), with the three members the manager initialises. The duration is a `double`, kept
as the rational it denotes. -/
structure SoundParams where
  name : String
  filename : String
  duration : ℚ
deriving DecidableEq

/-- Modelled from the spec: the `SCION_SOUNDS::Music` object (sounds library, not among the
sources): the sound parameters computed at add time and the owned decoded stream. -/
structure Music where
  params : SoundParams
  music : Mix_Music
deriving DecidableEq

/-- Modelled from the spec: the `SCION_SOUNDS::SoundFX` object (sounds library, not among the
sources): the sound parameters computed at add time and the owned decoded chunk. -/
structure SoundFX where
  params : SoundParams
  chunk : Mix_Chunk
deriving DecidableEq

/-- Modelled from the spec: a prefab, a composite resource owning on-disk artifacts. -/
structure Prefab where
  id : Nat
  artifacts : List String
deriving DecidableEq, Repr

/-- Modelled from the spec: the category tag `SCION_UTIL::AssetType` (declared in the utilities
library, not among the sources), a closed enumeration over the six categories. -/
inductive AssetType where
  | TEXTURE
  | FONT
  | SHADER
  | MUSIC
  | SOUNDFX
  | PREFAB
deriving DecidableEq, Repr

/-! ## Double-precision arithmetic

`chunk->alen / 179.4` converts the 32-bit length to `double`, takes the literal `179.4` as the
nearest `double`, and divides with the result rounded to the nearest `double`, ties to even
(IEEE-754 binary64, default rounding). -/

/-- A finite non-negative `double`: `significand * 2 ^ exponent`. -/
structure Double where
  significand : Nat
  exponent : Int
deriving DecidableEq, Repr

/-- The rational number a `double` denotes. -/
def Double.toRat (x : Double) : ℚ :=
  ((x.significand * 2 ^ x.exponent.toNat : Nat) : ℚ) / ((2 ^ (-x.exponent).toNat : Nat) : ℚ)

/-- The loop of `bitLength`: halves `n` until it is zero, at most `fuel` times. -/
def bitLengthLoop : Nat → Nat → Nat
  | 0, _ => 0
  | fuel + 1, n => if n = 0 then 0 else bitLengthLoop fuel (n / 2) + 1

/-- The number of binary digits of `n`: the least `k` with `n < 2 ^ k`. -/
def bitLength (n : Nat) : Nat := bitLengthLoop n n

/-- The binary64 number nearest to the positive rational `n / d`, ties to even: the quotient is
scaled to a 53-bit significand and rounded. Results outside the normal range of binary64 do
not arise from a 32-bit length and are not treated; for `n = 0` the result is zero. -/
def nearestDouble (n d : Nat) : Double :=
  if n = 0 ∨ d = 0 then ⟨0, 0⟩
  else
    let e0 : Int := (bitLength n : Int) - (bitLength d : Int)
    let bAtLeast : Bool :=
      if 0 ≤ e0 then decide (d * 2 ^ e0.toNat ≤ n) else decide (d ≤ n * 2 ^ (-e0).toNat)
    let e : Int := if bAtLeast then e0 else e0 - 1
    let shift : Int := 52 - e
    let num : Nat := n * 2 ^ shift.toNat
    let den : Nat := d * 2 ^ (-shift).toNat
    let low : Nat := num / den
    let rest : Nat := num % den
    let significand : Nat :=
      if 2 * rest < den then low
      else if den < 2 * rest then low + 1
      else if low % 2 = 0 then low
      else low + 1
    ⟨significand, -shift⟩

/-- The conversion of an unsigned integer to `double`. -/
def toDouble (n : Nat) : Double := nearestDouble n 1

/-- The literal `179.4` as a `double`: the binary64 number nearest to 179.4, which is
6312076352736461 / 2 ^ 45. -/
def double_179_4 : Double := nearestDouble 1794 10

/-- The `double` division `x / y` for a positive `y`: the exact quotient of the two denoted
numbers, rounded to the nearest `double`. -/
def divDouble (x y : Double) : Double :=
  nearestDouble (x.significand * 2 ^ x.exponent.toNat * 2 ^ (-y.exponent).toNat)
    (y.significand * 2 ^ y.exponent.toNat * 2 ^ (-x.exponent).toNat)

/-! ## External collaborators -/

/-- The functions the manager calls but does not define: the category loaders, the two
SDL_mixer entry points, and the prefab cleanup procedure. A loader yields `none` on failure. -/
structure Collaborators where
  TextureLoader_Create : TextureType → String → Bool → Option Texture
  TextureLoader_CreateFromMemory : List Nat → Nat → Bool → Bool → Option Texture
  FontLoader_Create : String → ℚ → Option Font
  FontLoader_CreateFromMemory : List Nat → ℚ → Option Font
  ShaderLoader_Create : String → String → Option Shader
  ShaderLoader_CreateFromMemory : String → String → Option Shader
  Mix_LoadMUS : String → Option Mix_Music
  Mix_MusicDuration : Mix_Music → ℚ
  Mix_LoadWAV : String → Option Mix_Chunk
  PrefabCreator_DeletePrefab : Prefab → Bool

/-- One call from the manager to an external collaborator, with its arguments. -/
inductive Call where
  | TextureLoader_Create (type : TextureType) (texturePath : String) (bTileset : Bool)
  | TextureLoader_CreateFromMemory (imageData : List Nat) (length : Nat) (pixelArt bTileset : Bool)
  | FontLoader_Create (fontPath : String) (fontSize : ℚ)
  | FontLoader_CreateFromMemory (fontData : List Nat) (fontSize : ℚ)
  | ShaderLoader_Create (vertexPath fragmentPath : String)
  | ShaderLoader_CreateFromMemory (vertexShader fragShader : String)
  | Mix_LoadMUS (filepath : String)
  | Mix_MusicDuration (music : Mix_Music)
  | Mix_LoadWAV (filepath : String)
  | PrefabCreator_DeletePrefab (prefab : Prefab)
deriving DecidableEq

/-! ## The manager -/

/-- The six category maps of `AssetManager`. Each stores shared pointers, so a stored value
is an `Option`. -/
structure AssetManager where
  m_mapTextures : StdMap (Option Texture) := []
  m_mapFonts : StdMap (Option Font) := []
  m_mapShader : StdMap (Option Shader) := []
  m_mapMusic : StdMap (Option Music) := []
  m_mapSoundFx : StdMap (Option SoundFX) := []
  m_mapPrefabs : StdMap (Option Prefab) := []
deriving DecidableEq

/-- What a member function did: the value it returns, the manager afterwards, the external
calls it made in order, and whether control ran into a failed `SCION_ASSERT`. When `bAsserted`
is set the call does not return to its caller; `value` and `state` then record what the
statements after the assertion would yield were the assertion compiled out. -/
structure Outcome (α : Type) where
  value : α
  state : AssetManager
  calls : List Call := []
  bAsserted : Bool := false

/-- Modelled from the spec: `SCION_ASSERT` (a logger macro, not among the sources), a fatal,
process-terminating assertion. It is applied to the outcome of the statements that follow it
and marks that outcome as never returned when the condition is false. -/
@[simp]
def SCION_ASSERT {α : Type} (cond : Bool) (rest : Outcome α) : Outcome α :=
  { rest with bAsserted := rest.bAsserted || !cond }

/-- The call returned `v` to its caller: no assertion was reached and the value is `v`. -/
def Outcome.Returns {α : Type} (o : Outcome α) (v : α) : Prop :=
  o.bAsserted = false ∧ o.value = v

/-- The `std::make_shared` template: it never yields a null pointer. -/
def make_shared {α : Type} (x : α) : Option α := some x

namespace AssetManager

/-- The freshly constructed manager: all six maps empty. -/
def empty : AssetManager := {}

/-- Embeds `AssetManager::AddTexture`. -/
def AddTexture (self : AssetManager) (ext : Collaborators) (textureName texturePath : String)
    (pixelArt bTileset : Bool) : Outcome Bool :=
  if (self.m_mapTextures.find textureName).isSome then
    { value := false, state := self }
  else
    let type := if pixelArt then TextureType.PIXEL else TextureType.BLENDED
    let texture := ext.TextureLoader_Create type texturePath bTileset
    let calls := [Call.TextureLoader_Create type texturePath bTileset]
    if texture.isNone then
      { value := false, state := self, calls := calls }
    else
      let r := self.m_mapTextures.emplace textureName texture
      { value := r.2, state := { self with m_mapTextures := r.1 }, calls := calls }

/-- Embeds `AssetManager::AddTextureFromMemory`. -/
def AddTextureFromMemory (self : AssetManager) (ext : Collaborators) (textureName : String)
    (imageData : List Nat) (length : Nat) (pixelArt bTileset : Bool) : Outcome Bool :=
  if self.m_mapTextures.contains textureName then
    { value := false, state := self }
  else
    let texture := ext.TextureLoader_CreateFromMemory imageData length pixelArt bTileset
    let calls := [Call.TextureLoader_CreateFromMemory imageData length pixelArt bTileset]
    if texture.isNone then
      { value := false, state := self, calls := calls }
    else
      let r := self.m_mapTextures.emplace textureName texture
      { value := r.2, state := { self with m_mapTextures := r.1 }, calls := calls }

/-- Embeds `AssetManager::GetTexture`. -/
def GetTexture (self : AssetManager) (textureName : String) : Option Texture :=
  match self.m_mapTextures.find textureName with
  | none => none
  | some second => second

/-- Embeds `AssetManager::AddFont`. -/
def AddFont (self : AssetManager) (ext : Collaborators) (fontName fontPath : String)
    (fontSize : ℚ) : Outcome Bool :=
  if self.m_mapFonts.contains fontName then
    { value := false, state := self }
  else
    let pFont := ext.FontLoader_Create fontPath fontSize
    let calls := [Call.FontLoader_Create fontPath fontSize]
    if pFont.isNone then
      { value := false, state := self, calls := calls }
    else
      let r := self.m_mapFonts.emplace fontName pFont
      { value := r.2, state := { self with m_mapFonts := r.1 }, calls := calls }

/-- Embeds `AssetManager::AddFontFromMemory`. -/
def AddFontFromMemory (self : AssetManager) (ext : Collaborators) (fontName : String)
    (fontData : List Nat) (fontSize : ℚ) : Outcome Bool :=
  if self.m_mapFonts.contains fontName then
    { value := false, state := self }
  else
    let pFont := ext.FontLoader_CreateFromMemory fontData fontSize
    let calls := [Call.FontLoader_CreateFromMemory fontData fontSize]
    if pFont.isNone then
      { value := false, state := self, calls := calls }
    else
      let r := self.m_mapFonts.emplace fontName pFont
      { value := r.2, state := { self with m_mapFonts := r.1 }, calls := calls }

/-- Embeds `AssetManager::GetFont`. -/
def GetFont (self : AssetManager) (fontName : String) : Option Font :=
  match self.m_mapFonts.find fontName with
  | none => none
  | some second => second

/-- Embeds `AssetManager::AddShader`. -/
def AddShader (self : AssetManager) (ext : Collaborators) (shaderName vertexPath fragmentPath : String) :
    Outcome Bool :=
  if self.m_mapShader.contains shaderName then
    { value := false, state := self }
  else
    let shader := ext.ShaderLoader_Create vertexPath fragmentPath
    let calls := [Call.ShaderLoader_Create vertexPath fragmentPath]
    if shader.isNone then
      { value := false, state := self, calls := calls }
    else
      let r := self.m_mapShader.emplace shaderName shader
      { value := r.2, state := { self with m_mapShader := r.1 }, calls := calls }

/-- Embeds `AssetManager::AddShaderFromMemory`. The loader result is inserted as it comes:
the source has no test of `shader` between the load and the insert. -/
def AddShaderFromMemory (self : AssetManager) (ext : Collaborators)
    (shaderName vertexShader fragShader : String) : Outcome Bool :=
  if self.m_mapShader.contains shaderName then
    { value := false, state := self }
  else
    let shader := ext.ShaderLoader_CreateFromMemory vertexShader fragShader
    let calls := [Call.ShaderLoader_CreateFromMemory vertexShader fragShader]
    let r := self.m_mapShader.emplace shaderName shader
    { value := r.2, state := { self with m_mapShader := r.1 }, calls := calls }

/-- Embeds `AssetManager::GetShader`. -/
def GetShader (self : AssetManager) (shaderName : String) : Option Shader :=
  match self.m_mapShader.find shaderName with
  | none => none
  | some second => second

/-- Embeds `AssetManager::AddMusic`. `Mix_GetError` only feeds the diagnostic line and is left
out with it. -/
def AddMusic (self : AssetManager) (ext : Collaborators) (musicName filepath : String) :
    Outcome Bool :=
  if self.m_mapMusic.contains musicName then
    { value := false, state := self }
  else
    match ext.Mix_LoadMUS filepath with
    | none => { value := false, state := self, calls := [Call.Mix_LoadMUS filepath] }
    | some music =>
      let params : SoundParams :=
        { name := musicName, filename := filepath, duration := ext.Mix_MusicDuration music }
      let calls := [Call.Mix_LoadMUS filepath, Call.Mix_MusicDuration music]
      let musicPtr := make_shared (Music.mk params music)
      if musicPtr.isNone then
        { value := false, state := self, calls := calls }
      else
        let r := self.m_mapMusic.emplace musicName musicPtr
        { value := r.2, state := { self with m_mapMusic := r.1 }, calls := calls }

/-- Embeds `AssetManager::GetMusic`. -/
def GetMusic (self : AssetManager) (musicName : String) : Option Music :=
  match self.m_mapMusic.find musicName with
  | none => none
  | some second => second

/-- Embeds `AssetManager::AddSoundFx`. The duration is `chunk->alen / 179.4` in `double`
arithmetic; `Mix_GetError` only feeds the diagnostic line and is left out with it. -/
def AddSoundFx (self : AssetManager) (ext : Collaborators) (soundFxName filepath : String) :
    Outcome Bool :=
  if self.m_mapSoundFx.contains soundFxName then
    { value := false, state := self }
  else
    match ext.Mix_LoadWAV filepath with
    | none => { value := false, state := self, calls := [Call.Mix_LoadWAV filepath] }
    | some chunk =>
      let params : SoundParams :=
        { name := soundFxName, filename := filepath,
          duration := (divDouble (toDouble chunk.alen) double_179_4).toRat }
      let pSoundFx := make_shared (SoundFX.mk params chunk)
      let r := self.m_mapSoundFx.emplace soundFxName pSoundFx
      { value := r.2, state := { self with m_mapSoundFx := r.1 }, calls := [Call.Mix_LoadWAV filepath] }

/-- Embeds `AssetManager::GetSoundFx`. -/
def GetSoundFx (self : AssetManager) (soundFxName : String) : Option SoundFX :=
  match self.m_mapSoundFx.find soundFxName with
  | none => none
  | some second => second

/-- Embeds `AssetManager::AddPrefab`. The pointer handed in is stored as it comes. -/
def AddPrefab (self : AssetManager) (sPrefabName : String) (pPrefab : Option Prefab) :
    Outcome Bool :=
  if self.m_mapPrefabs.contains sPrefabName then
    { value := false, state := self }
  else
    let r := self.m_mapPrefabs.emplace sPrefabName pPrefab
    { value := r.2, state := { self with m_mapPrefabs := r.1 } }

/-- Embeds `AssetManager::GetPrefab`. -/
def GetPrefab (self : AssetManager) (sPrefabName : String) : Option Prefab :=
  match self.m_mapPrefabs.find sPrefabName with
  | none => none
  | some second => second

end AssetManager

/-! ### Utilities of `SCION_UTIL` used by the switchboard -/

/-- Modelled from the spec: `SCION_UTIL::GetKeys` (utilities library, not among the sources):
the names of one map whose entry satisfies the predicate, fully materialised. -/
def GetKeys {β : Type} (m : StdMap β) (pred : String × β → Bool) : List String :=
  (m.filter pred).map Prod.fst

/-- Modelled from the spec: `SCION_UTIL::KeyChange` (utilities library, not among the sources):
fails when the new name already exists or the old name does not; otherwise the entry keeps its
handle and takes the new name. -/
def KeyChange {β : Type} (m : StdMap β) (key change : String) : StdMap β × Bool :=
  if m.contains change then (m, false)
  else if !m.contains key then (m, false)
  else (m.map (fun pair => if pair.1 = key then (change, pair.2) else pair), true)

/-- The lambda of `GetTilesetNames`: `pair.second->IsTileset()`. Dereferencing a null pointer
is undefined in the source; the embedding answers `false` there. -/
def isTilesetPair (pair : String × Option Texture) : Bool :=
  match pair.2 with
  | some t => t.IsTileset
  | none => false

/-- The lambda of `GetAssetKeyNames`: `!pair.second->IsEditorTexture()`. Dereferencing a null
pointer is undefined in the source; the embedding answers `false` there. -/
def isNotEditorPair (pair : String × Option Texture) : Bool :=
  match pair.2 with
  | some t => !t.IsEditorTexture
  | none => false

/-- A mutating operation of the manager together with its arguments. -/
inductive Op where
  | AddTexture (textureName texturePath : String) (pixelArt bTileset : Bool)
  | AddTextureFromMemory (textureName : String) (imageData : List Nat) (length : Nat)
      (pixelArt bTileset : Bool)
  | AddFont (fontName fontPath : String) (fontSize : ℚ)
  | AddFontFromMemory (fontName : String) (fontData : List Nat) (fontSize : ℚ)
  | AddShader (shaderName vertexPath fragmentPath : String)
  | AddShaderFromMemory (shaderName vertexShader fragShader : String)
  | AddMusic (musicName filepath : String)
  | AddSoundFx (soundFxName filepath : String)
  | AddPrefab (sPrefabName : String) (pPrefab : Option Prefab)
  | ChangeAssetName (sOldName sNewName : String) (eAssetType : AssetType)
  | DeleteAsset (sAssetName : String) (eAssetType : AssetType)

/-- No entry of the map holds a null pointer. -/
def StdMap.allSome {β : Type} (m : StdMap (Option β)) : Bool :=
  m.all (fun pair => pair.2.isSome)

namespace AssetManager

/-- Embeds `AssetManager::GetTilesetNames`. -/
def GetTilesetNames (self : AssetManager) : List String :=
  GetKeys self.m_mapTextures isTilesetPair

/-- Embeds `AssetManager::GetAssetKeyNames`. -/
def GetAssetKeyNames (self : AssetManager) (eAssetType : AssetType) : Outcome (List String) :=
  match eAssetType with
  | .TEXTURE => { value := GetKeys self.m_mapTextures isNotEditorPair, state := self }
  | .FONT => { value := GetKeys self.m_mapFonts (fun _ => true), state := self }
  | .SOUNDFX => { value := GetKeys self.m_mapSoundFx (fun _ => true), state := self }
  | .MUSIC => { value := GetKeys self.m_mapMusic (fun _ => true), state := self }
  | .PREFAB => { value := GetKeys self.m_mapPrefabs (fun _ => true), state := self }
  | _ => SCION_ASSERT false { value := [], state := self }

/-- Embeds `AssetManager::ChangeAssetName`. -/
def ChangeAssetName (self : AssetManager) (sOldName sNewName : String) (eAssetType : AssetType) :
    Outcome Bool :=
  match eAssetType with
  | .TEXTURE =>
    let r := KeyChange self.m_mapTextures sOldName sNewName
    { value := r.2, state := { self with m_mapTextures := r.1 } }
  | .FONT =>
    let r := KeyChange self.m_mapFonts sOldName sNewName
    { value := r.2, state := { self with m_mapFonts := r.1 } }
  | .SOUNDFX =>
    let r := KeyChange self.m_mapSoundFx sOldName sNewName
    { value := r.2, state := { self with m_mapSoundFx := r.1 } }
  | .MUSIC =>
    let r := KeyChange self.m_mapMusic sOldName sNewName
    { value := r.2, state := { self with m_mapMusic := r.1 } }
  | _ => SCION_ASSERT false { value := false, state := self }

/-- Embeds `AssetManager::CheckHasAsset`. -/
def CheckHasAsset (self : AssetManager) (sNameCheck : String) (eAssetType : AssetType) :
    Outcome Bool :=
  match eAssetType with
  | .TEXTURE => { value := self.m_mapTextures.contains sNameCheck, state := self }
  | .FONT => { value := self.m_mapFonts.contains sNameCheck, state := self }
  | .SOUNDFX => { value := self.m_mapSoundFx.contains sNameCheck, state := self }
  | .MUSIC => { value := self.m_mapMusic.contains sNameCheck, state := self }
  | .PREFAB => { value := self.m_mapPrefabs.contains sNameCheck, state := self }
  | _ => SCION_ASSERT false { value := false, state := self }

/-- Embeds `AssetManager::DeleteAsset`. -/
def DeleteAsset (self : AssetManager) (ext : Collaborators) (sAssetName : String)
    (eAssetType : AssetType) : Outcome Bool :=
  match eAssetType with
  | .TEXTURE =>
    let r := self.m_mapTextures.erase_if (fun pair => decide (pair.1 = sAssetName))
    { value := decide (r.2 > 0), state := { self with m_mapTextures := r.1 } }
  | .FONT =>
    let r := self.m_mapFonts.erase_if (fun pair => decide (pair.1 = sAssetName))
    { value := decide (r.2 > 0), state := { self with m_mapFonts := r.1 } }
  | .SOUNDFX =>
    let r := self.m_mapSoundFx.erase_if (fun pair => decide (pair.1 = sAssetName))
    { value := decide (r.2 > 0), state := { self with m_mapSoundFx := r.1 } }
  | .MUSIC =>
    let r := self.m_mapMusic.erase_if (fun pair => decide (pair.1 = sAssetName))
    { value := decide (r.2 > 0), state := { self with m_mapMusic := r.1 } }
  | .PREFAB =>
    match self.GetPrefab sAssetName with
    | some pPrefab =>
      if !ext.PrefabCreator_DeletePrefab pPrefab then
        { value := false, state := self, calls := [Call.PrefabCreator_DeletePrefab pPrefab] }
      else
        let r := self.m_mapPrefabs.erase sAssetName
        { value := decide (r.2 > 0), state := { self with m_mapPrefabs := r.1 },
          calls := [Call.PrefabCreator_DeletePrefab pPrefab] }
    | none => { value := false, state := self }
  | _ => SCION_ASSERT false { value := false, state := self }

/-! ### Vocabulary for stating the properties -/

/-- The name is a key of the map of the given category. -/
def present (self : AssetManager) (eAssetType : AssetType) (name : String) : Bool :=
  match eAssetType with
  | .TEXTURE => self.m_mapTextures.contains name
  | .FONT => self.m_mapFonts.contains name
  | .SHADER => self.m_mapShader.contains name
  | .MUSIC => self.m_mapMusic.contains name
  | .SOUNDFX => self.m_mapSoundFx.contains name
  | .PREFAB => self.m_mapPrefabs.contains name

/-- Collaborators whose loaders all succeed with fixed resources and whose cleanup succeeds. -/
def succeeding : Collaborators where
  TextureLoader_Create := fun type _ bTileset => some ⟨1, type, bTileset, false⟩
  TextureLoader_CreateFromMemory := fun _ _ pixelArt bTileset =>
    some ⟨2, if pixelArt then .PIXEL else .BLENDED, bTileset, false⟩
  FontLoader_Create := fun _ fontSize => some ⟨3, fontSize⟩
  FontLoader_CreateFromMemory := fun _ fontSize => some ⟨4, fontSize⟩
  ShaderLoader_Create := fun _ _ => some ⟨5⟩
  ShaderLoader_CreateFromMemory := fun _ _ => some ⟨6⟩
  Mix_LoadMUS := fun _ => some ⟨7⟩
  Mix_MusicDuration := fun _ => 120
  Mix_LoadWAV := fun _ => some ⟨8, 1794⟩
  PrefabCreator_DeletePrefab := fun _ => true

/-- Collaborators whose loaders all fail and whose cleanup fails. -/
def failing : Collaborators where
  TextureLoader_Create := fun _ _ _ => none
  TextureLoader_CreateFromMemory := fun _ _ _ _ => none
  FontLoader_Create := fun _ _ => none
  FontLoader_CreateFromMemory := fun _ _ => none
  ShaderLoader_Create := fun _ _ => none
  ShaderLoader_CreateFromMemory := fun _ _ => none
  Mix_LoadMUS := fun _ => none
  Mix_MusicDuration := fun _ => 0
  Mix_LoadWAV := fun _ => none
  PrefabCreator_DeletePrefab := fun _ => false

/-- Runs one operation. -/
def step (self : AssetManager) (ext : Collaborators) : Op → Outcome Bool
  | .AddTexture n p a b => self.AddTexture ext n p a b
  | .AddTextureFromMemory n d l a b => self.AddTextureFromMemory ext n d l a b
  | .AddFont n p z => self.AddFont ext n p z
  | .AddFontFromMemory n d z => self.AddFontFromMemory ext n d z
  | .AddShader n v f => self.AddShader ext n v f
  | .AddShaderFromMemory n v f => self.AddShaderFromMemory ext n v f
  | .AddMusic n p => self.AddMusic ext n p
  | .AddSoundFx n p => self.AddSoundFx ext n p
  | .AddPrefab n h => self.AddPrefab n h
  | .ChangeAssetName a b t => self.ChangeAssetName a b t
  | .DeleteAsset n t => self.DeleteAsset ext n t

/-- Runs a sequence of operations, each against the collaborators of its moment, and yields
the final manager state. -/
def run (self : AssetManager) : List (Collaborators × Op) → AssetManager
  | [] => self
  | (ext, op) :: rest => run (self.step ext op).state rest

/-- No category map holds a null pointer. -/
def noNullHandle (self : AssetManager) : Bool :=
  self.m_mapTextures.allSome && self.m_mapFonts.allSome && self.m_mapShader.allSome &&
    self.m_mapMusic.allSome && self.m_mapSoundFx.allSome && self.m_mapPrefabs.allSome

/-- The operation does not hand the manager a null pointer to store: an AddPrefab carries a
non-null prefab and an AddShaderFromMemory meets a loader that yields a shader. -/
def givesHandle (ext : Collaborators) : Op → Prop
  | .AddPrefab _ h => h.isSome = true
  | .AddShaderFromMemory _ v f => (ext.ShaderLoader_CreateFromMemory v f).isSome = true
  | _ => True

/-- The maps of all categories other than `t` are the same in both states. -/
def sameOutside (t : AssetType) (s r : AssetManager) : Prop :=
  (t ≠ .TEXTURE → r.m_mapTextures = s.m_mapTextures) ∧
  (t ≠ .FONT → r.m_mapFonts = s.m_mapFonts) ∧
  (t ≠ .SHADER → r.m_mapShader = s.m_mapShader) ∧
  (t ≠ .MUSIC → r.m_mapMusic = s.m_mapMusic) ∧
  (t ≠ .SOUNDFX → r.m_mapSoundFx = s.m_mapSoundFx) ∧
  (t ≠ .PREFAB → r.m_mapPrefabs = s.m_mapPrefabs)

/-- A manager holding one shader "basic" and one prefab "crate". -/
def sample : AssetManager :=
  { m_mapShader := [("basic", some ⟨5⟩)], m_mapPrefabs := [("crate", some ⟨9, ["crate.json"]⟩)] }

/-- A manager holding two textures, "hero" and "tiles". -/
def twoTextures : AssetManager :=
  { m_mapTextures := [("hero", some ⟨1, .PIXEL, false, false⟩),
                      ("tiles", some ⟨2, .BLENDED, true, false⟩)] }

end AssetManager

namespace AssetManager

/-- Within each category map the names are pairwise distinct. -/
def keysNodup (self : AssetManager) : Prop :=
  self.m_mapTextures.keys.Nodup ∧ self.m_mapFonts.keys.Nodup ∧ self.m_mapShader.keys.Nodup ∧
    self.m_mapMusic.keys.Nodup ∧ self.m_mapSoundFx.keys.Nodup ∧ self.m_mapPrefabs.keys.Nodup

end AssetManager

/-- The category an operation targets. -/
def Op.category : Op → AssetType
  | .AddTexture _ _ _ _ => .TEXTURE
  | .AddTextureFromMemory _ _ _ _ _ => .TEXTURE
  | .AddFont _ _ _ => .FONT
  | .AddFontFromMemory _ _ _ => .FONT
  | .AddShader _ _ _ => .SHADER
  | .AddShaderFromMemory _ _ _ => .SHADER
  | .AddMusic _ _ => .MUSIC
  | .AddSoundFx _ _ => .SOUNDFX
  | .AddPrefab _ _ => .PREFAB
  | .ChangeAssetName _ _ t => t
  | .DeleteAsset _ t => t

/-- The two managers hold the same map for category `t`. -/
def AssetManager.agreeOn (t : AssetType) (s r : AssetManager) : Prop :=
  match t with
  | .TEXTURE => r.m_mapTextures = s.m_mapTextures
  | .FONT => r.m_mapFonts = s.m_mapFonts
  | .SHADER => r.m_mapShader = s.m_mapShader
  | .MUSIC => r.m_mapMusic = s.m_mapMusic
  | .SOUNDFX => r.m_mapSoundFx = s.m_mapSoundFx
  | .PREFAB => r.m_mapPrefabs = s.m_mapPrefabs

/-- A manager holding one sound effect named "play_button" and nothing else. -/
def AssetManager.withSound : AssetManager :=
  { m_mapSoundFx := [("play_button", some ⟨⟨"play_button", "click.wav", 10⟩, ⟨8, 1794⟩⟩)] }

/-! ## Startup: the default font and `Application::Initialize` -/

/-- What the headers outside the sources declare and the startup code relies on, taken as
parameters: the compiled-in font `pixel_font` of `default_fonts.h`, the default `fontSize`
argument of `AddFontFromMemory`, and the default `pixelArt` and `bTileset` arguments of
`AddTextureFromMemory`. -/
structure Declared where
  pixel_font : List Nat
  fontSize : ℚ
  pixelArt : Bool
  bTileset : Bool

/-- Embeds `AssetManager::CreateDefaultFonts`. -/
def AssetManager.CreateDefaultFonts (self : AssetManager) (ext : Collaborators)
    (hdr : Declared) : Outcome Bool :=
  let r := self.AddFontFromMemory ext "pixel" hdr.pixel_font hdr.fontSize
  if !r.value then
    { value := false, state := r.state, calls := r.calls }
  else
    { value := true, state := r.state, calls := r.calls }

/-- The statement `GetTexture( name )->SetIsEditorTexture( b )`: the flag is set on the texture
object that the map entry shares. Dereferencing a null pointer is undefined in the source; the
embedding leaves a null entry as it is. -/
def AssetManager.SetIsEditorTexture (self : AssetManager) (name : String) (b : Bool) :
    AssetManager :=
  { self with
    m_mapTextures := self.m_mapTextures.map (fun pair =>
      if pair.1 = name then
        (pair.1, pair.2.map (fun t => { t with bEditorTexture := b }))
      else pair) }

end SCION_RESOURCES

namespace SCION_EDITOR

open SCION_RESOURCES

/-- The outcome of each step of `Application::Initialize` that involves only the platform (SDL,
OpenGL, the window, the registry, ImGui, the displays), in source order; `true` means the step
succeeded. -/
structure Platform where
  bSDL_Init : Bool
  bSDL_GL_LoadLibrary : Bool
  bGetWindow : Bool
  bGladLoadGLLoader : Bool
  bGetGLContext : Bool
  bSDL_GL_MakeCurrent : Bool
  bRegistryInitialize : Bool
  bInitImGui : Bool
  bCreateDisplays : Bool
  bAddEditorFramebuffers : Bool
  bAddGridSystem : Bool

/-- The image arrays of `editor_textures.h` (not among the sources) and the five size constants
declared next to them, taken as parameters. -/
structure EditorTextures where
  play_button : List Nat
  stop_button : List Nat
  music_icon : List Nat
  scene_icon : List Nat
  x_axis_arrow : List Nat
  x_axis_arrow_size : Nat
  y_axis_arrow : List Nat
  y_axis_arrow_size : Nat
  x_axis_scale : List Nat
  x_axis_scale_size : Nat
  y_axis_scale : List Nat
  y_axis_scale_size : Nat
  rotate_tool : List Nat
  rotate_tool_size : Nat
  file_icon : List Nat
  folder_icon : List Nat
  image_icon : List Nat

namespace Application

/-- One block of `LoadShaders`: `if ( !assetManager.AddShader( ... ) ) return false;`, run after
the blocks whose outcome is `prev`. Once a block has returned false nothing more runs. -/
def loadShader (ext : Collaborators) (prev : Outcome Bool)
    (shaderName vertexPath fragmentPath : String) : Outcome Bool :=
  if !prev.value then prev
  else
    let r := prev.state.AddShader ext shaderName vertexPath fragmentPath
    if !r.value then
      { value := false, state := r.state, calls := prev.calls ++ r.calls }
    else
      { value := true, state := r.state, calls := prev.calls ++ r.calls }

/-- Embeds `Application::LoadShaders` on the asset manager of the main registry. -/
def LoadShaders (ext : Collaborators) (assetManager : AssetManager) : Outcome Bool :=
  let r0 : Outcome Bool := { value := true, state := assetManager }
  let r1 := loadShader ext r0 "basic" "assets/shaders/basicShader.vert"
    "assets/shaders/basicShader.frag"
  let r2 := loadShader ext r1 "color" "assets/shaders/colorShader.vert"
    "assets/shaders/colorShader.frag"
  let r3 := loadShader ext r2 "circle" "assets/shaders/circleShader.vert"
    "assets/shaders/circleShader.frag"
  loadShader ext r3 "font" "assets/shaders/fontShader.vert" "assets/shaders/fontShader.frag"

/-- One block of `LoadEditorTextures`: `if ( !assetManager.AddTextureFromMemory( name, data,
length ) ) return false;` followed by `GetTexture( name )->SetIsEditorTexture( true )`, run
after the blocks whose outcome is `prev`. -/
def loadEditorTexture (ext : Collaborators) (hdr : Declared) (prev : Outcome Bool)
    (name : String) (data : List Nat) (length : Nat) : Outcome Bool :=
  if !prev.value then prev
  else
    let r := prev.state.AddTextureFromMemory ext name data length hdr.pixelArt hdr.bTileset
    if !r.value then
      { value := false, state := r.state, calls := prev.calls ++ r.calls }
    else
      { value := true, state := r.state.SetIsEditorTexture name true,
        calls := prev.calls ++ r.calls }

/-- Embeds `Application::LoadEditorTextures` on the asset manager of the main registry. -/
def LoadEditorTextures (ext : Collaborators) (hdr : Declared) (tex : EditorTextures)
    (assetManager : AssetManager) : Outcome Bool :=
  let r0 : Outcome Bool := { value := true, state := assetManager }
  let r1 := loadEditorTexture ext hdr r0 "play_button" tex.play_button tex.play_button.length
  let r2 := loadEditorTexture ext hdr r1 "stop_button" tex.stop_button tex.stop_button.length
  let r3 := loadEditorTexture ext hdr r2 "music_icon" tex.music_icon tex.music_icon.length
  let r4 := loadEditorTexture ext hdr r3 "scene_icon" tex.scene_icon tex.scene_icon.length
  let r5 := loadEditorTexture ext hdr r4 "S2D_x_axis_translate" tex.x_axis_arrow
    tex.x_axis_arrow_size
  let r6 := loadEditorTexture ext hdr r5 "S2D_y_axis_translate" tex.y_axis_arrow
    tex.y_axis_arrow_size
  let r7 := loadEditorTexture ext hdr r6 "S2D_x_axis_scale" tex.x_axis_scale
    tex.x_axis_scale_size
  let r8 := loadEditorTexture ext hdr r7 "S2D_y_axis_scale" tex.y_axis_scale
    tex.y_axis_scale_size
  let r9 := loadEditorTexture ext hdr r8 "S2D_rotate_tool" tex.rotate_tool tex.rotate_tool_size
  let r10 := loadEditorTexture ext hdr r9 "S2D_file_icon" tex.file_icon tex.file_icon.length
  let r11 := loadEditorTexture ext hdr r10 "S2D_music_icon" tex.music_icon tex.music_icon.length
  let r12 := loadEditorTexture ext hdr r11 "S2D_folder_icon" tex.folder_icon
    tex.folder_icon.length
  loadEditorTexture ext hdr r12 "S2D_image_icon" tex.image_icon tex.image_icon.length

/-- The part of `Application::Initialize` before the call of `CreateDefaultFonts` (lines 54 to
186): `none` when one of its steps made Initialize return false, otherwise the outcome so far,
whose state is the asset manager that `CreateDefaultFonts` is called on. `assetManager` is the
manager held by the main registry once the registry is initialised. -/
def beforeDefaultFonts (pf : Platform) (ext : Collaborators) (hdr : Declared)
    (tex : EditorTextures) (assetManager : AssetManager) : Option (Outcome Bool) :=
  if !pf.bSDL_Init then none
  else if !pf.bSDL_GL_LoadLibrary then none
  else if !pf.bGetWindow then none
  else if !pf.bGladLoadGLLoader then none
  else if !pf.bGetGLContext then none
  else if !pf.bSDL_GL_MakeCurrent then none
  else if !pf.bRegistryInitialize then none
  else if !pf.bInitImGui then none
  else
    let r1 := LoadShaders ext assetManager
    if !r1.value then none
    else
      let r2 := LoadEditorTextures ext hdr tex r1.state
      if !r2.value then none
      else if !pf.bCreateDisplays then none
      else some { value := true, state := r2.state, calls := r1.calls ++ r2.calls }

/-- The outcome of `Application::Initialize` when a step before the call of
`CreateDefaultFonts` makes it return false: the manager holds what `LoadShaders` and
`LoadEditorTextures` had stored up to that step, and the calls are those made so far. -/
def failedBeforeDefaultFonts (pf : Platform) (ext : Collaborators) (hdr : Declared)
    (tex : EditorTextures) (assetManager : AssetManager) : Outcome Bool :=
  if !pf.bSDL_Init then { value := false, state := assetManager }
  else if !pf.bSDL_GL_LoadLibrary then { value := false, state := assetManager }
  else if !pf.bGetWindow then { value := false, state := assetManager }
  else if !pf.bGladLoadGLLoader then { value := false, state := assetManager }
  else if !pf.bGetGLContext then { value := false, state := assetManager }
  else if !pf.bSDL_GL_MakeCurrent then { value := false, state := assetManager }
  else if !pf.bRegistryInitialize then { value := false, state := assetManager }
  else if !pf.bInitImGui then { value := false, state := assetManager }
  else
    let r1 := LoadShaders ext assetManager
    if !r1.value then { value := false, state := r1.state, calls := r1.calls }
    else
      let r2 := LoadEditorTextures ext hdr tex r1.state
      { value := false, state := r2.state, calls := r1.calls ++ r2.calls }

/-- Embeds `Application::Initialize`, as far as the asset manager and the returned flag go:
the value is the returned flag and the state is the asset manager of the main registry. -/
def Initialize (pf : Platform) (ext : Collaborators) (hdr : Declared) (tex : EditorTextures)
    (assetManager : AssetManager) : Outcome Bool :=
  match beforeDefaultFonts pf ext hdr tex assetManager with
  | none => failedBeforeDefaultFonts pf ext hdr tex assetManager
  | some r =>
    let f := r.state.CreateDefaultFonts ext hdr
    if !f.value then
      { value := false, state := f.state, calls := r.calls ++ f.calls }
    else if (make_shared ()).isNone then
      { value := false, state := f.state, calls := r.calls ++ f.calls }
    else if !pf.bAddEditorFramebuffers then
      { value := false, state := f.state, calls := r.calls ++ f.calls }
    else if !pf.bAddGridSystem then
      { value := false, state := f.state, calls := r.calls ++ f.calls }
    else
      { value := true, state := f.state, calls := r.calls ++ f.calls }

/-- A platform on which every step succeeds. -/
def allGood : Platform :=
  ⟨true, true, true, true, true, true, true, true, true, true, true⟩

/-- Editor texture data with one byte per image. -/
def tinyTextures : EditorTextures :=
  ⟨[1], [2], [3], [4], [5], 1, [6], 1, [7], 1, [8], 1, [9], 1, [10], [11], [12]⟩

end Application

end SCION_EDITOR

namespace SCION_RESOURCES

/-- Header declarations for the examples: a two-byte font at size 32, pixel art, no tileset. -/
def Declared.sample : Declared := ⟨[0, 1], 32, true, false⟩

/-- Collaborators like `succeeding`, except that the font loader from memory fails. -/
def AssetManager.fontless : Collaborators :=
  { AssetManager.succeeding with FontLoader_CreateFromMemory := fun _ _ => none }

/-! ## The scripting bridge

`AssetManager::CreateLuaAssetManager` registers five functions with the script state. Each is a
lambda over the process-wide manager `asset_manager`; the embedding passes that manager as the
state argument. -/

namespace LuaAssetManager

/-- The first overload registered as `add_texture`:
`return asset_manager.AddTexture( assetName, filepath, pixel_art, false )`. -/
def add_texture (asset_manager : AssetManager) (ext : Collaborators)
    (assetName filepath : String) (pixel_art : Bool) : Outcome Bool :=
  asset_manager.AddTexture ext assetName filepath pixel_art false

/-- The second overload registered as `add_texture`, with the tileset flag:
`return asset_manager.AddTexture( assetName, filepath, pixel_art, bTileset )`. -/
def add_texture_bTileset (asset_manager : AssetManager) (ext : Collaborators)
    (assetName filepath : String) (pixel_art bTileset : Bool) : Outcome Bool :=
  asset_manager.AddTexture ext assetName filepath pixel_art bTileset

/-- The lambda registered as `add_music`. -/
def add_music (asset_manager : AssetManager) (ext : Collaborators)
    (musicName filepath : String) : Outcome Bool :=
  asset_manager.AddMusic ext musicName filepath

/-- The lambda registered as `add_soundfx`. -/
def add_soundfx (asset_manager : AssetManager) (ext : Collaborators)
    (soundFxName filepath : String) : Outcome Bool :=
  asset_manager.AddSoundFx ext soundFxName filepath

/-- The lambda registered as `add_font`. -/
def add_font (asset_manager : AssetManager) (ext : Collaborators)
    (fontName fontPath : String) (fontSize : ℚ) : Outcome Bool :=
  asset_manager.AddFont ext fontName fontPath fontSize

end LuaAssetManager

end SCION_RESOURCES

/-! ## `FileProcessor::SeparateParams` -/

namespace SCION_FILESYSTEM

/-- The expression `p + n` for a pointer `p` to the first `char` of a NUL-terminated string.
The string is given by its `char` elements before the NUL, one list element per byte (a text
outside ASCII is given by the bytes of its encoding), so `n` counts bytes as in the source.
The result is the string that starts `n` elements further on. Reading it is defined only while
the result points at an element or at the terminator, that is for `n` up to the length; beyond
that the result is `none`. -/
def ptrAdd (p : List Char) (n : Nat) : Option (List Char) :=
  if n ≤ p.length then some (p.drop n) else none

namespace FileProcessor

/-- Embeds `FileProcessor::SeparateParams`. Each `param` is a `const char*`, so in
`sParams += param + ' '` the sum is pointer arithmetic: the character code of the blank is
added to the pointer and the string found there is appended. The result is `none` when a
pointer leaves its string (undefined behaviour in the source). -/
def SeparateParams (params : List (List Char)) : Option (List Char) :=
  params.foldl
    (fun sParams param =>
      match sParams, ptrAdd param (' ').toNat with
      | some text, some moved => some (text ++ moved)
      | _, _ => none)
    (some [])

/-- What the name and the claim ask for: every parameter in full, each followed by one blank. -/
def separatedByBlanks (params : List (List Char)) : List Char :=
  (params.map (fun param => param ++ [' '])).flatten

end FileProcessor

end SCION_FILESYSTEM

namespace SCION_RESOURCES

/-! ## Vocabulary for the life of an entry -/

/-- A stored handle of any category. -/
inductive Handle where
  | texture (p : Option Texture)
  | font (p : Option Font)
  | shader (p : Option Shader)
  | music (p : Option Music)
  | soundFx (p : Option SoundFX)
  | prefab (p : Option Prefab)

/-- The handle that `name` maps to in the map of category `t`; `none` when `name` is not a key
of that map. -/
def AssetManager.entry (self : AssetManager) (t : AssetType) (name : String) : Option Handle :=
  match t with
  | .TEXTURE => (self.m_mapTextures.find name).map Handle.texture
  | .FONT => (self.m_mapFonts.find name).map Handle.font
  | .SHADER => (self.m_mapShader.find name).map Handle.shader
  | .MUSIC => (self.m_mapMusic.find name).map Handle.music
  | .SOUNDFX => (self.m_mapSoundFx.find name).map Handle.soundFx
  | .PREFAB => (self.m_mapPrefabs.find name).map Handle.prefab

/-- The operation is an Add of `name` to category `t`. -/
def Op.isAddOf (op : Op) (t : AssetType) (name : String) : Prop :=
  match op with
  | .AddTexture n _ _ _ => t = .TEXTURE ∧ n = name
  | .AddTextureFromMemory n _ _ _ _ => t = .TEXTURE ∧ n = name
  | .AddFont n _ _ => t = .FONT ∧ n = name
  | .AddFontFromMemory n _ _ => t = .FONT ∧ n = name
  | .AddShader n _ _ => t = .SHADER ∧ n = name
  | .AddShaderFromMemory n _ _ => t = .SHADER ∧ n = name
  | .AddMusic n _ => t = .MUSIC ∧ n = name
  | .AddSoundFx n _ => t = .SOUNDFX ∧ n = name
  | .AddPrefab n _ => t = .PREFAB ∧ n = name
  | .ChangeAssetName _ _ _ => False
  | .DeleteAsset _ _ => False

/-- How the lookups of a map may differ after one operation: a name that was found is found
with the same value, unless it is the one name `gone`; a name that was not found is still not
found, unless it is the one name `come`. -/
def StdMap.Evolves {β : Type} (m m2 : StdMap β) (gone come : Option String) : Prop :=
  ∀ k, (∀ v, m.find k = some v → m2.find k = some v ∨ (m2.find k = none ∧ gone = some k)) ∧
    (m.find k = none → m2.find k = none ∨ come = some k)

/-- Collaborators like `succeeding`, except that the sound loader yields a chunk of 1000
bytes. -/
def AssetManager.shortClip : Collaborators :=
  { AssetManager.succeeding with Mix_LoadWAV := fun _ => some ⟨9, 1000⟩ }

/-! ## Lemmas about the container -/

namespace StdMap

variable {β : Type}

theorem contains_eq_false_iff (m : StdMap β) (key : String) :
    m.contains key = false ↔ m.find key = none := by
  simp [contains]

theorem find_append_of_none (m : StdMap β) (key k : String) (v : β) (h : m.find key = none) :
    find (m ++ [(k, v)]) key = if k = key then some v else none := by
  induction m with
  | nil => simp [find]
  | cons hd tl ih =>
    obtain ⟨a, b⟩ := hd
    simp only [find] at h
    by_cases hk : a = key
    · simp [hk] at h
    · simp only [hk, if_false] at h
      simp [find, hk, ih h]

theorem find_append_of_some (m : StdMap β) (key k : String) (v w : β) (h : m.find key = some w) :
    find (m ++ [(k, v)]) key = some w := by
  induction m with
  | nil => simp [find] at h
  | cons hd tl ih =>
    obtain ⟨a, b⟩ := hd
    simp only [find] at h
    by_cases hk : a = key
    · simp only [hk, if_true] at h
      simp [find, hk, h]
    · simp only [hk, if_false] at h
      simp [find, hk, ih h]

/-- On an absent key `emplace` inserts: the flag is set and the key now maps to the value. -/
theorem emplace_absent (m : StdMap β) (key : String) (v : β) (h : m.contains key = false) :
    (m.emplace key v).2 = true ∧ find (m.emplace key v).1 key = some v := by
  have hn := (contains_eq_false_iff m key).1 h
  simp [emplace, h, find_append_of_none m key key v hn]

/-- On a present key `emplace` changes nothing and clears the flag. -/
theorem emplace_present (m : StdMap β) (key : String) (v : β) (h : m.contains key = true) :
    m.emplace key v = (m, false) := by
  simp [emplace, h]

/-- When the flag of `emplace` is set the key is present afterwards. -/
theorem contains_of_emplace (m : StdMap β) (key : String) (v : β)
    (h : (m.emplace key v).2 = true) : contains (m.emplace key v).1 key = true := by
  by_cases hc : m.contains key = true
  · simp [emplace, hc] at h
  · have hc2 : m.contains key = false := by simpa using hc
    have := (emplace_absent m key v hc2).2
    simp [contains, this]

end StdMap

/-! ## Add operations -/

namespace AssetManager

/-- C1: for each of the nine Add families, every manager state and every name `N` absent from
the category map, if the category loader succeeds with handle `h` (for AddPrefab: the caller
hands in `h`), the Add returns true and the matching Get of `N` afterwards yields exactly `h`
(for music and sound effects: the sound object wrapping `h` with the parameters computed at
add time). -/
theorem add_success_then_get (s : AssetManager) (ext : Collaborators) (N : String) :
    (∀ (path : String) (pixelArt bTileset : Bool) (h : Texture),
        s.present .TEXTURE N = false →
        ext.TextureLoader_Create (if pixelArt then .PIXEL else .BLENDED) path bTileset = some h →
        (s.AddTexture ext N path pixelArt bTileset).Returns true ∧
        (s.AddTexture ext N path pixelArt bTileset).state.GetTexture N = some h) ∧
    (∀ (data : List Nat) (length : Nat) (pixelArt bTileset : Bool) (h : Texture),
        s.present .TEXTURE N = false →
        ext.TextureLoader_CreateFromMemory data length pixelArt bTileset = some h →
        (s.AddTextureFromMemory ext N data length pixelArt bTileset).Returns true ∧
        (s.AddTextureFromMemory ext N data length pixelArt bTileset).state.GetTexture N = some h) ∧
    (∀ (path : String) (fontSize : ℚ) (h : Font),
        s.present .FONT N = false →
        ext.FontLoader_Create path fontSize = some h →
        (s.AddFont ext N path fontSize).Returns true ∧
        (s.AddFont ext N path fontSize).state.GetFont N = some h) ∧
    (∀ (data : List Nat) (fontSize : ℚ) (h : Font),
        s.present .FONT N = false →
        ext.FontLoader_CreateFromMemory data fontSize = some h →
        (s.AddFontFromMemory ext N data fontSize).Returns true ∧
        (s.AddFontFromMemory ext N data fontSize).state.GetFont N = some h) ∧
    (∀ (vertexPath fragmentPath : String) (h : Shader),
        s.present .SHADER N = false →
        ext.ShaderLoader_Create vertexPath fragmentPath = some h →
        (s.AddShader ext N vertexPath fragmentPath).Returns true ∧
        (s.AddShader ext N vertexPath fragmentPath).state.GetShader N = some h) ∧
    (∀ (vertexShader fragShader : String) (h : Shader),
        s.present .SHADER N = false →
        ext.ShaderLoader_CreateFromMemory vertexShader fragShader = some h →
        (s.AddShaderFromMemory ext N vertexShader fragShader).Returns true ∧
        (s.AddShaderFromMemory ext N vertexShader fragShader).state.GetShader N = some h) ∧
    (∀ (path : String) (h : Mix_Music),
        s.present .MUSIC N = false →
        ext.Mix_LoadMUS path = some h →
        (s.AddMusic ext N path).Returns true ∧
        (s.AddMusic ext N path).state.GetMusic N =
          some ⟨⟨N, path, ext.Mix_MusicDuration h⟩, h⟩) ∧
    (∀ (path : String) (h : Mix_Chunk),
        s.present .SOUNDFX N = false →
        ext.Mix_LoadWAV path = some h →
        (s.AddSoundFx ext N path).Returns true ∧
        (s.AddSoundFx ext N path).state.GetSoundFx N =
          some ⟨⟨N, path, (divDouble (toDouble h.alen) double_179_4).toRat⟩, h⟩) ∧
    (∀ (h : Prefab),
        s.present .PREFAB N = false →
        (s.AddPrefab N (some h)).Returns true ∧
        (s.AddPrefab N (some h)).state.GetPrefab N = some h) := by
  refine ⟨?_, ?_, ?_, ?_, ?_, ?_, ?_, ?_, ?_⟩
  · intro path pixelArt bTileset h habs hload
    have hc : s.m_mapTextures.contains N = false := habs
    have hf : (s.m_mapTextures.find N).isSome = false := hc
    obtain ⟨h1, h2⟩ := StdMap.emplace_absent s.m_mapTextures N (some h) hc
    simp [AddTexture, hf, hload, Outcome.Returns, GetTexture, h1, h2]
  · intro data length pixelArt bTileset h habs hload
    have hc : s.m_mapTextures.contains N = false := habs
    obtain ⟨h1, h2⟩ := StdMap.emplace_absent s.m_mapTextures N (some h) hc
    simp [AddTextureFromMemory, hc, hload, Outcome.Returns, GetTexture, h1, h2]
  · intro path fontSize h habs hload
    have hc : s.m_mapFonts.contains N = false := habs
    obtain ⟨h1, h2⟩ := StdMap.emplace_absent s.m_mapFonts N (some h) hc
    simp [AddFont, hc, hload, Outcome.Returns, GetFont, h1, h2]
  · intro data fontSize h habs hload
    have hc : s.m_mapFonts.contains N = false := habs
    obtain ⟨h1, h2⟩ := StdMap.emplace_absent s.m_mapFonts N (some h) hc
    simp [AddFontFromMemory, hc, hload, Outcome.Returns, GetFont, h1, h2]
  · intro vertexPath fragmentPath h habs hload
    have hc : s.m_mapShader.contains N = false := habs
    obtain ⟨h1, h2⟩ := StdMap.emplace_absent s.m_mapShader N (some h) hc
    simp [AddShader, hc, hload, Outcome.Returns, GetShader, h1, h2]
  · intro vertexShader fragShader h habs hload
    have hc : s.m_mapShader.contains N = false := habs
    obtain ⟨h1, h2⟩ := StdMap.emplace_absent s.m_mapShader N (some h) hc
    simp [AddShaderFromMemory, hc, hload, Outcome.Returns, GetShader, h1, h2]
  · intro path h habs hload
    have hc : s.m_mapMusic.contains N = false := habs
    obtain ⟨h1, h2⟩ := StdMap.emplace_absent s.m_mapMusic N
      (some (Music.mk ⟨N, path, ext.Mix_MusicDuration h⟩ h)) hc
    simp [AddMusic, hc, hload, Outcome.Returns, GetMusic, make_shared, h1, h2]
  · intro path h habs hload
    have hc : s.m_mapSoundFx.contains N = false := habs
    obtain ⟨h1, h2⟩ := StdMap.emplace_absent s.m_mapSoundFx N
      (some (SoundFX.mk ⟨N, path, (divDouble (toDouble h.alen) double_179_4).toRat⟩ h)) hc
    simp [AddSoundFx, hc, hload, Outcome.Returns, GetSoundFx, make_shared, h1, h2]
  · intro h habs
    have hc : s.m_mapPrefabs.contains N = false := habs
    obtain ⟨h1, h2⟩ := StdMap.emplace_absent s.m_mapPrefabs N (some h) hc
    simp [AddPrefab, hc, Outcome.Returns, GetPrefab, h1, h2]

/-- Witness of C1 on the empty manager: the name "hero" is absent, the texture loader
succeeds, and the texture is then served under "hero". -/
theorem add_success_then_get_witness :
    empty.present .TEXTURE "hero" = false ∧
    succeeding.TextureLoader_Create .PIXEL "hero.png" false = some ⟨1, .PIXEL, false, false⟩ ∧
    (empty.AddTexture succeeding "hero" "hero.png" true false).Returns true ∧
    (empty.AddTexture succeeding "hero" "hero.png" true false).state.GetTexture "hero" =
      some ⟨1, .PIXEL, false, false⟩ :=
  ⟨rfl, rfl,
    (add_success_then_get empty succeeding "hero").1 "hero.png" true false
      ⟨1, .PIXEL, false, false⟩ rfl rfl⟩

/-- C2: for every Add family, every manager state and every name `N` already present in the
category map, the Add returns false, makes no external call (the loader is not invoked) and
leaves the whole manager state as it was, so every Get answers as before. -/
theorem add_duplicate_rejected (s : AssetManager) (ext : Collaborators) (N : String) :
    (s.present .TEXTURE N = true →
      (∀ (path : String) (pixelArt bTileset : Bool),
        (s.AddTexture ext N path pixelArt bTileset).Returns false ∧
        (s.AddTexture ext N path pixelArt bTileset).calls = [] ∧
        (s.AddTexture ext N path pixelArt bTileset).state = s) ∧
      (∀ (data : List Nat) (length : Nat) (pixelArt bTileset : Bool),
        (s.AddTextureFromMemory ext N data length pixelArt bTileset).Returns false ∧
        (s.AddTextureFromMemory ext N data length pixelArt bTileset).calls = [] ∧
        (s.AddTextureFromMemory ext N data length pixelArt bTileset).state = s)) ∧
    (s.present .FONT N = true →
      (∀ (path : String) (fontSize : ℚ),
        (s.AddFont ext N path fontSize).Returns false ∧
        (s.AddFont ext N path fontSize).calls = [] ∧
        (s.AddFont ext N path fontSize).state = s) ∧
      (∀ (data : List Nat) (fontSize : ℚ),
        (s.AddFontFromMemory ext N data fontSize).Returns false ∧
        (s.AddFontFromMemory ext N data fontSize).calls = [] ∧
        (s.AddFontFromMemory ext N data fontSize).state = s)) ∧
    (s.present .SHADER N = true →
      (∀ (vertexPath fragmentPath : String),
        (s.AddShader ext N vertexPath fragmentPath).Returns false ∧
        (s.AddShader ext N vertexPath fragmentPath).calls = [] ∧
        (s.AddShader ext N vertexPath fragmentPath).state = s) ∧
      (∀ (vertexShader fragShader : String),
        (s.AddShaderFromMemory ext N vertexShader fragShader).Returns false ∧
        (s.AddShaderFromMemory ext N vertexShader fragShader).calls = [] ∧
        (s.AddShaderFromMemory ext N vertexShader fragShader).state = s)) ∧
    (s.present .MUSIC N = true →
      ∀ (path : String),
        (s.AddMusic ext N path).Returns false ∧
        (s.AddMusic ext N path).calls = [] ∧
        (s.AddMusic ext N path).state = s) ∧
    (s.present .SOUNDFX N = true →
      ∀ (path : String),
        (s.AddSoundFx ext N path).Returns false ∧
        (s.AddSoundFx ext N path).calls = [] ∧
        (s.AddSoundFx ext N path).state = s) ∧
    (s.present .PREFAB N = true →
      ∀ (pPrefab : Option Prefab),
        (s.AddPrefab N pPrefab).Returns false ∧
        (s.AddPrefab N pPrefab).calls = [] ∧
        (s.AddPrefab N pPrefab).state = s) := by
  refine ⟨?_, ?_, ?_, ?_, ?_, ?_⟩
  · intro hp
    have hc : s.m_mapTextures.contains N = true := hp
    have hf : (s.m_mapTextures.find N).isSome = true := hc
    constructor
    · intro path pixelArt bTileset
      simp [AddTexture, hf, Outcome.Returns]
    · intro data length pixelArt bTileset
      simp [AddTextureFromMemory, hc, Outcome.Returns]
  · intro hp
    have hc : s.m_mapFonts.contains N = true := hp
    constructor
    · intro path fontSize
      simp [AddFont, hc, Outcome.Returns]
    · intro data fontSize
      simp [AddFontFromMemory, hc, Outcome.Returns]
  · intro hp
    have hc : s.m_mapShader.contains N = true := hp
    constructor
    · intro vertexPath fragmentPath
      simp [AddShader, hc, Outcome.Returns]
    · intro vertexShader fragShader
      simp [AddShaderFromMemory, hc, Outcome.Returns]
  · intro hp path
    have hc : s.m_mapMusic.contains N = true := hp
    simp [AddMusic, hc, Outcome.Returns]
  · intro hp path
    have hc : s.m_mapSoundFx.contains N = true := hp
    simp [AddSoundFx, hc, Outcome.Returns]
  · intro hp pPrefab
    have hc : s.m_mapPrefabs.contains N = true := hp
    simp [AddPrefab, hc, Outcome.Returns]

/-- Witness of C2: after "hero" was added once, adding it again is rejected without a loader
call and the manager still serves the first texture. -/
theorem add_duplicate_rejected_witness :
    (empty.AddTexture succeeding "hero" "hero.png" true false).state.present .TEXTURE "hero" = true ∧
    ((empty.AddTexture succeeding "hero" "hero.png" true false).state.AddTexture
        succeeding "hero" "other.png" false true).Returns false ∧
    ((empty.AddTexture succeeding "hero" "hero.png" true false).state.AddTexture
        succeeding "hero" "other.png" false true).calls = [] ∧
    ((empty.AddTexture succeeding "hero" "hero.png" true false).state.AddTexture
        succeeding "hero" "other.png" false true).state =
      (empty.AddTexture succeeding "hero" "hero.png" true false).state :=
  ⟨by decide,
    ((add_duplicate_rejected (empty.AddTexture succeeding "hero" "hero.png" true false).state
      succeeding "hero").1 (by decide)).1 "other.png" false true⟩

/-- The loader-failure rule on the seven Add families that test the loader result: when the
loader yields no resource the Add returns false and the manager state is unchanged. -/
theorem add_load_failure_checked (s : AssetManager) (ext : Collaborators) (N : String) :
    (∀ (path : String) (pixelArt bTileset : Bool),
        ext.TextureLoader_Create (if pixelArt then .PIXEL else .BLENDED) path bTileset = none →
        (s.AddTexture ext N path pixelArt bTileset).Returns false ∧
        (s.AddTexture ext N path pixelArt bTileset).state = s) ∧
    (∀ (data : List Nat) (length : Nat) (pixelArt bTileset : Bool),
        ext.TextureLoader_CreateFromMemory data length pixelArt bTileset = none →
        (s.AddTextureFromMemory ext N data length pixelArt bTileset).Returns false ∧
        (s.AddTextureFromMemory ext N data length pixelArt bTileset).state = s) ∧
    (∀ (path : String) (fontSize : ℚ),
        ext.FontLoader_Create path fontSize = none →
        (s.AddFont ext N path fontSize).Returns false ∧
        (s.AddFont ext N path fontSize).state = s) ∧
    (∀ (data : List Nat) (fontSize : ℚ),
        ext.FontLoader_CreateFromMemory data fontSize = none →
        (s.AddFontFromMemory ext N data fontSize).Returns false ∧
        (s.AddFontFromMemory ext N data fontSize).state = s) ∧
    (∀ (vertexPath fragmentPath : String),
        ext.ShaderLoader_Create vertexPath fragmentPath = none →
        (s.AddShader ext N vertexPath fragmentPath).Returns false ∧
        (s.AddShader ext N vertexPath fragmentPath).state = s) ∧
    (∀ (path : String),
        ext.Mix_LoadMUS path = none →
        (s.AddMusic ext N path).Returns false ∧
        (s.AddMusic ext N path).state = s) ∧
    (∀ (path : String),
        ext.Mix_LoadWAV path = none →
        (s.AddSoundFx ext N path).Returns false ∧
        (s.AddSoundFx ext N path).state = s) := by
  refine ⟨?_, ?_, ?_, ?_, ?_, ?_, ?_⟩
  · intro path pixelArt bTileset hload
    cases hf : (s.m_mapTextures.find N).isSome <;> simp [AddTexture, hf, hload, Outcome.Returns]
  · intro data length pixelArt bTileset hload
    cases hc : s.m_mapTextures.contains N <;>
      simp [AddTextureFromMemory, hc, hload, Outcome.Returns]
  · intro path fontSize hload
    cases hc : s.m_mapFonts.contains N <;> simp [AddFont, hc, hload, Outcome.Returns]
  · intro data fontSize hload
    cases hc : s.m_mapFonts.contains N <;> simp [AddFontFromMemory, hc, hload, Outcome.Returns]
  · intro vertexPath fragmentPath hload
    cases hc : s.m_mapShader.contains N <;> simp [AddShader, hc, hload, Outcome.Returns]
  · intro path hload
    cases hc : s.m_mapMusic.contains N <;> simp [AddMusic, hc, hload, Outcome.Returns]
  · intro path hload
    cases hc : s.m_mapSoundFx.contains N <;> simp [AddSoundFx, hc, hload, Outcome.Returns]

/-- C3, evaluated where the code departs from it: on the empty manager with a failing
shader-from-memory loader, AddShaderFromMemory returns true and creates an entry for "basic"
holding the null handle, whereas AddShader on the same manager with its failing loader
returns false and leaves the manager empty. -/
theorem addShaderFromMemory_keeps_failed_load :
    failing.ShaderLoader_CreateFromMemory "vert" "frag" = none ∧
    (empty.AddShaderFromMemory failing "basic" "vert" "frag").Returns true ∧
    (empty.AddShaderFromMemory failing "basic" "vert" "frag").state.m_mapShader =
      [("basic", none)] ∧
    (empty.AddShaderFromMemory failing "basic" "vert" "frag").state ≠ empty ∧
    (empty.AddShader failing "basic" "vert" "frag").Returns false ∧
    (empty.AddShader failing "basic" "vert" "frag").state = empty := by
  refine ⟨rfl, ⟨rfl, rfl⟩, rfl, by decide, ⟨rfl, rfl⟩, rfl⟩

end AssetManager

/-! ## Sequences of operations and the stored handles -/

namespace StdMap

variable {β : Type}

theorem allSome_iff (m : StdMap (Option β)) :
    m.allSome = true ↔ ∀ pair ∈ m, pair.2.isSome = true := by
  simp [allSome]

theorem allSome_emplace (m : StdMap (Option β)) (key : String) (v : Option β)
    (h : m.allSome = true) (hv : v.isSome = true) : (m.emplace key v).1.allSome = true := by
  rw [allSome_iff] at h ⊢
  unfold emplace
  split
  · exact h
  · intro pair hp
    rcases List.mem_append.1 hp with hp | hp
    · exact h pair hp
    · simp at hp
      simp [hp, hv]

theorem allSome_filter (m : StdMap (Option β)) (pred : String × Option β → Bool)
    (h : m.allSome = true) : allSome (m.filter pred) = true := by
  rw [allSome_iff] at h ⊢
  intro pair hp
  exact h pair (List.mem_filter.1 hp).1

theorem mem_of_find (m : StdMap β) (key : String) (v : β) (h : m.find key = some v) :
    (key, v) ∈ m := by
  induction m with
  | nil => simp [find] at h
  | cons hd tl ih =>
    obtain ⟨a, b⟩ := hd
    simp only [find] at h
    by_cases hk : a = key
    · simp only [hk, if_true, Option.some.injEq] at h
      simp [hk, h]
    · simp only [hk, if_false] at h
      exact List.mem_cons_of_mem _ (ih h)

/-- In a map without null entries a lookup never finds a null pointer. -/
theorem find_ne_some_none (m : StdMap (Option β)) (key : String) (h : m.allSome = true) :
    m.find key ≠ some none := by
  intro hf
  have := (allSome_iff m).1 h _ (mem_of_find m key none hf)
  simp at this

end StdMap

theorem isSome_of_not_isNone {α : Type} (x : Option α) (h : ¬ x.isNone = true) :
    x.isSome = true := by
  cases x <;> simp_all

theorem allSome_keyChange {β : Type} (m : StdMap (Option β)) (key change : String)
    (h : m.allSome = true) : (KeyChange m key change).1.allSome = true := by
  unfold KeyChange
  split
  · exact h
  · split
    · exact h
    · rw [StdMap.allSome_iff] at h ⊢
      intro pair hp
      obtain ⟨q, hq, rfl⟩ := List.mem_map.1 hp
      have := h q hq
      by_cases hk : q.1 = key <;> simp [hk, this]

namespace AssetManager

theorem noNullHandle_iff (s : AssetManager) :
    s.noNullHandle = true ↔
      s.m_mapTextures.allSome = true ∧ s.m_mapFonts.allSome = true ∧
      s.m_mapShader.allSome = true ∧ s.m_mapMusic.allSome = true ∧
      s.m_mapSoundFx.allSome = true ∧ s.m_mapPrefabs.allSome = true := by
  simp [noNullHandle, and_assoc]

/-- One operation that gives a handle keeps every map free of null pointers. -/
theorem step_noNullHandle (s : AssetManager) (ext : Collaborators) (op : Op)
    (hs : s.noNullHandle = true) (hop : givesHandle ext op) :
    (s.step ext op).state.noNullHandle = true := by
  have hs0 := hs
  rw [noNullHandle_iff] at hs
  obtain ⟨h1, h2, h3, h4, h5, h6⟩ := hs
  cases op with
  | AddTexture n p a b =>
    simp only [step, AddTexture]
    generalize (if a = true then TextureType.PIXEL else TextureType.BLENDED) = type
    split
    · exact hs0
    · split
      · exact hs0
      · rename_i hn
        rw [noNullHandle_iff]
        exact ⟨StdMap.allSome_emplace _ _ _ h1 (isSome_of_not_isNone _ hn), h2, h3, h4, h5, h6⟩
  | AddTextureFromMemory n d l a b =>
    simp only [step, AddTextureFromMemory]
    split
    · exact hs0
    · split
      · exact hs0
      · rename_i hn
        rw [noNullHandle_iff]
        exact ⟨StdMap.allSome_emplace _ _ _ h1 (isSome_of_not_isNone _ hn), h2, h3, h4, h5, h6⟩
  | AddFont n p z =>
    simp only [step, AddFont]
    split
    · exact hs0
    · split
      · exact hs0
      · rename_i hn
        rw [noNullHandle_iff]
        exact ⟨h1, StdMap.allSome_emplace _ _ _ h2 (isSome_of_not_isNone _ hn), h3, h4, h5, h6⟩
  | AddFontFromMemory n d z =>
    simp only [step, AddFontFromMemory]
    split
    · exact hs0
    · split
      · exact hs0
      · rename_i hn
        rw [noNullHandle_iff]
        exact ⟨h1, StdMap.allSome_emplace _ _ _ h2 (isSome_of_not_isNone _ hn), h3, h4, h5, h6⟩
  | AddShader n v f =>
    simp only [step, AddShader]
    split
    · exact hs0
    · split
      · exact hs0
      · rename_i hn
        rw [noNullHandle_iff]
        exact ⟨h1, h2, StdMap.allSome_emplace _ _ _ h3 (isSome_of_not_isNone _ hn), h4, h5, h6⟩
  | AddShaderFromMemory n v f =>
    simp only [step, AddShaderFromMemory]
    split
    · exact hs0
    · rw [noNullHandle_iff]
      exact ⟨h1, h2, StdMap.allSome_emplace _ _ _ h3 hop, h4, h5, h6⟩
  | AddMusic n p =>
    simp only [step, AddMusic]
    split
    · exact hs0
    · split
      · exact hs0
      · simp only [make_shared, Option.isNone_some, Bool.false_eq_true, if_false]
        rw [noNullHandle_iff]
        exact ⟨h1, h2, h3, StdMap.allSome_emplace _ _ _ h4 rfl, h5, h6⟩
  | AddSoundFx n p =>
    simp only [step, AddSoundFx]
    split
    · exact hs0
    · split
      · exact hs0
      · rw [noNullHandle_iff]
        exact ⟨h1, h2, h3, h4, StdMap.allSome_emplace _ _ _ h5 rfl, h6⟩
  | AddPrefab n h =>
    simp only [step, AddPrefab]
    split
    · exact hs0
    · rw [noNullHandle_iff]
      exact ⟨h1, h2, h3, h4, h5, StdMap.allSome_emplace _ _ _ h6 hop⟩
  | ChangeAssetName a b t =>
    cases t <;> simp only [step, ChangeAssetName] <;> rw [noNullHandle_iff]
    · exact ⟨allSome_keyChange _ _ _ h1, h2, h3, h4, h5, h6⟩
    · exact ⟨h1, allSome_keyChange _ _ _ h2, h3, h4, h5, h6⟩
    · exact ⟨h1, h2, h3, h4, h5, h6⟩
    · exact ⟨h1, h2, h3, allSome_keyChange _ _ _ h4, h5, h6⟩
    · exact ⟨h1, h2, h3, h4, allSome_keyChange _ _ _ h5, h6⟩
    · exact ⟨h1, h2, h3, h4, h5, h6⟩
  | DeleteAsset n t =>
    cases t <;> simp only [step, DeleteAsset]
    · rw [noNullHandle_iff]
      exact ⟨StdMap.allSome_filter _ _ h1, h2, h3, h4, h5, h6⟩
    · rw [noNullHandle_iff]
      exact ⟨h1, StdMap.allSome_filter _ _ h2, h3, h4, h5, h6⟩
    · exact hs0
    · rw [noNullHandle_iff]
      exact ⟨h1, h2, h3, StdMap.allSome_filter _ _ h4, h5, h6⟩
    · rw [noNullHandle_iff]
      exact ⟨h1, h2, h3, h4, StdMap.allSome_filter _ _ h5, h6⟩
    · split
      · split
        · exact hs0
        · rw [noNullHandle_iff]
          exact ⟨h1, h2, h3, h4, h5, StdMap.allSome_filter _ _ h6⟩
      · exact hs0

/-- A sequence of operations that all give a handle keeps every map free of null pointers. -/
theorem run_noNullHandle (ops : List (Collaborators × Op)) (s : AssetManager)
    (hs : s.noNullHandle = true) (hops : ∀ p ∈ ops, givesHandle p.1 p.2) :
    (s.run ops).noNullHandle = true := by
  induction ops generalizing s with
  | nil => exact hs
  | cons hd tl ih =>
    obtain ⟨ext, op⟩ := hd
    simp only [run]
    apply ih
    · exact step_noNullHandle s ext op hs (hops (ext, op) (List.mem_cons_self _ _))
    · intro p hp
      exact hops p (List.mem_cons_of_mem _ hp)

/-- In a map without null entries, a Get that answers null found no entry. -/
theorem absent_of_get_none {β : Type} (m : StdMap (Option β)) (N : String)
    (h : m.allSome = true)
    (hg : (m.find N).join = none) : m.contains N = false := by
  cases hf : m.find N with
  | none => simp [StdMap.contains, hf]
  | some v =>
    rw [hf] at hg
    have hv : v = none := by simpa [Option.join] using hg
    rw [hv] at hf
    exact absurd hf (StdMap.find_ne_some_none m N h)

theorem GetTexture_eq (s : AssetManager) (N : String) :
    s.GetTexture N = (s.m_mapTextures.find N).join := by
  unfold GetTexture
  cases s.m_mapTextures.find N <;> rfl

theorem GetFont_eq (s : AssetManager) (N : String) :
    s.GetFont N = (s.m_mapFonts.find N).join := by
  unfold GetFont
  cases s.m_mapFonts.find N <;> rfl

theorem GetShader_eq (s : AssetManager) (N : String) :
    s.GetShader N = (s.m_mapShader.find N).join := by
  unfold GetShader
  cases s.m_mapShader.find N <;> rfl

theorem GetMusic_eq (s : AssetManager) (N : String) :
    s.GetMusic N = (s.m_mapMusic.find N).join := by
  unfold GetMusic
  cases s.m_mapMusic.find N <;> rfl

theorem GetSoundFx_eq (s : AssetManager) (N : String) :
    s.GetSoundFx N = (s.m_mapSoundFx.find N).join := by
  unfold GetSoundFx
  cases s.m_mapSoundFx.find N <;> rfl

theorem GetPrefab_eq (s : AssetManager) (N : String) :
    s.GetPrefab N = (s.m_mapPrefabs.find N).join := by
  unfold GetPrefab
  cases s.m_mapPrefabs.find N <;> rfl

/-- C4, refuted as stated: one AddPrefab that is handed a null prefab pointer leads from the
empty manager to a state where "crate" is a key of the prefab map and yet GetPrefab answers
the not-found signal; the prefab map stores a null handle. -/
theorem null_prefab_handle_reachable :
    (empty.run [(succeeding, Op.AddPrefab "crate" none)]).present .PREFAB "crate" = true ∧
    (empty.run [(succeeding, Op.AddPrefab "crate" none)]).GetPrefab "crate" = none ∧
    (empty.run [(succeeding, Op.AddPrefab "crate" none)]).m_mapPrefabs = [("crate", none)] := by
  refine ⟨by decide, by decide, by decide⟩

/-- C4, amended: in every state reached from the empty manager by a sequence of Add, rename and
delete operations in which every AddPrefab is handed a non-null prefab and every
AddShaderFromMemory meets a succeeding loader, no category map stores a null handle, and for
every category and name `N` the Get answers the not-found signal only if `N` is absent from
the category map. -/
theorem reachable_get_null_only_if_absent (ops : List (Collaborators × Op))
    (hops : ∀ p ∈ ops, givesHandle p.1 p.2) (N : String) :
    (empty.run ops).noNullHandle = true ∧
    ((empty.run ops).GetTexture N = none → (empty.run ops).present .TEXTURE N = false) ∧
    ((empty.run ops).GetFont N = none → (empty.run ops).present .FONT N = false) ∧
    ((empty.run ops).GetShader N = none → (empty.run ops).present .SHADER N = false) ∧
    ((empty.run ops).GetMusic N = none → (empty.run ops).present .MUSIC N = false) ∧
    ((empty.run ops).GetSoundFx N = none → (empty.run ops).present .SOUNDFX N = false) ∧
    ((empty.run ops).GetPrefab N = none → (empty.run ops).present .PREFAB N = false) := by
  have hinv := run_noNullHandle ops empty (by decide) hops
  refine ⟨hinv, ?_⟩
  rw [noNullHandle_iff] at hinv
  obtain ⟨h1, h2, h3, h4, h5, h6⟩ := hinv
  simp only [GetTexture_eq, GetFont_eq, GetShader_eq, GetMusic_eq, GetSoundFx_eq, GetPrefab_eq]
  exact ⟨absent_of_get_none _ N h1, absent_of_get_none _ N h2, absent_of_get_none _ N h3,
    absent_of_get_none _ N h4, absent_of_get_none _ N h5, absent_of_get_none _ N h6⟩

/-- Witness of the amended C4: a prefab is added with a real handle, a shader is loaded from
memory, the prefab is renamed away (rejected by the switchboard) and deleted; at the end no map
stores a null handle and "crate" is absent. -/
theorem reachable_get_null_only_if_absent_witness :
    (∀ p ∈ [(succeeding, Op.AddPrefab "crate" (some ⟨1, ["crate.json"]⟩)),
            (succeeding, Op.AddShaderFromMemory "basic" "vert" "frag"),
            (failing, Op.AddTexture "hero" "hero.png" true false),
            (succeeding, Op.DeleteAsset "crate" .PREFAB)], givesHandle p.1 p.2) ∧
    (empty.run [(succeeding, Op.AddPrefab "crate" (some ⟨1, ["crate.json"]⟩)),
            (succeeding, Op.AddShaderFromMemory "basic" "vert" "frag"),
            (failing, Op.AddTexture "hero" "hero.png" true false),
            (succeeding, Op.DeleteAsset "crate" .PREFAB)]).noNullHandle = true ∧
    (empty.run [(succeeding, Op.AddPrefab "crate" (some ⟨1, ["crate.json"]⟩)),
            (succeeding, Op.AddShaderFromMemory "basic" "vert" "frag"),
            (failing, Op.AddTexture "hero" "hero.png" true false),
            (succeeding, Op.DeleteAsset "crate" .PREFAB)]).present .PREFAB "crate" = false :=
  have hops : ∀ p ∈ [(succeeding, Op.AddPrefab "crate" (some ⟨1, ["crate.json"]⟩)),
            (succeeding, Op.AddShaderFromMemory "basic" "vert" "frag"),
            (failing, Op.AddTexture "hero" "hero.png" true false),
            (succeeding, Op.DeleteAsset "crate" .PREFAB)], givesHandle p.1 p.2 := by
    intro p hp
    simp only [List.mem_cons, List.mem_singleton, List.not_mem_nil, or_false] at hp
    rcases hp with rfl | rfl | rfl | rfl <;> simp [givesHandle, succeeding]
  ⟨hops, (reachable_get_null_only_if_absent _ hops "crate").1,
    (reachable_get_null_only_if_absent _ hops "crate").2.2.2.2.2.2 (by decide)⟩

/-! ## Existence check after Add -/

/-- C5, refuted as stated: after a successful AddShader of "basic", CheckHasAsset for the
shader tag does not return true; it has no shader case, reaches the default-case assertion,
and the statement after the switch yields false. -/
theorem checkHasAsset_shader_after_add :
    (empty.AddShader succeeding "basic" "basic.vert" "basic.frag").Returns true ∧
    ¬ ((empty.AddShader succeeding "basic" "basic.vert" "basic.frag").state.CheckHasAsset
        "basic" .SHADER).Returns true ∧
    ((empty.AddShader succeeding "basic" "basic.vert" "basic.frag").state.CheckHasAsset
        "basic" .SHADER).bAsserted = true ∧
    ((empty.AddShader succeeding "basic" "basic.vert" "basic.frag").state.CheckHasAsset
        "basic" .SHADER).value = false := by
  refine ⟨⟨rfl, rfl⟩, ?_, rfl, rfl⟩
  intro h
  exact absurd h.1 (by decide)

/-- C5, amended: for the five categories texture, font, music, sound-fx and prefab, every Add
family, every state and every name `N`: when the Add of `N` returns true, CheckHasAsset of `N`
with the category tag on the resulting state returns true. For the shader tag CheckHasAsset
reaches the default-case assertion on every state and name. -/
theorem checkHasAsset_after_add (s : AssetManager) (ext : Collaborators) (N : String) :
    (∀ (path : String) (pixelArt bTileset : Bool),
        (s.AddTexture ext N path pixelArt bTileset).Returns true →
        ((s.AddTexture ext N path pixelArt bTileset).state.CheckHasAsset N .TEXTURE).Returns true) ∧
    (∀ (data : List Nat) (length : Nat) (pixelArt bTileset : Bool),
        (s.AddTextureFromMemory ext N data length pixelArt bTileset).Returns true →
        ((s.AddTextureFromMemory ext N data length pixelArt bTileset).state.CheckHasAsset
          N .TEXTURE).Returns true) ∧
    (∀ (path : String) (fontSize : ℚ),
        (s.AddFont ext N path fontSize).Returns true →
        ((s.AddFont ext N path fontSize).state.CheckHasAsset N .FONT).Returns true) ∧
    (∀ (data : List Nat) (fontSize : ℚ),
        (s.AddFontFromMemory ext N data fontSize).Returns true →
        ((s.AddFontFromMemory ext N data fontSize).state.CheckHasAsset N .FONT).Returns true) ∧
    (∀ (path : String),
        (s.AddMusic ext N path).Returns true →
        ((s.AddMusic ext N path).state.CheckHasAsset N .MUSIC).Returns true) ∧
    (∀ (path : String),
        (s.AddSoundFx ext N path).Returns true →
        ((s.AddSoundFx ext N path).state.CheckHasAsset N .SOUNDFX).Returns true) ∧
    (∀ (pPrefab : Option Prefab),
        (s.AddPrefab N pPrefab).Returns true →
        ((s.AddPrefab N pPrefab).state.CheckHasAsset N .PREFAB).Returns true) ∧
    (s.CheckHasAsset N .SHADER).bAsserted = true := by
  refine ⟨?_, ?_, ?_, ?_, ?_, ?_, ?_, rfl⟩
  · intro path pixelArt bTileset
    simp only [AddTexture]
    generalize (if pixelArt = true then TextureType.PIXEL else TextureType.BLENDED) = type
    split
    · simp [Outcome.Returns]
    · split
      · simp [Outcome.Returns]
      · intro h
        exact ⟨rfl, StdMap.contains_of_emplace _ _ _ h.2⟩
  · intro data length pixelArt bTileset
    simp only [AddTextureFromMemory]
    split
    · simp [Outcome.Returns]
    · split
      · simp [Outcome.Returns]
      · intro h
        exact ⟨rfl, StdMap.contains_of_emplace _ _ _ h.2⟩
  · intro path fontSize
    simp only [AddFont]
    split
    · simp [Outcome.Returns]
    · split
      · simp [Outcome.Returns]
      · intro h
        exact ⟨rfl, StdMap.contains_of_emplace _ _ _ h.2⟩
  · intro data fontSize
    simp only [AddFontFromMemory]
    split
    · simp [Outcome.Returns]
    · split
      · simp [Outcome.Returns]
      · intro h
        exact ⟨rfl, StdMap.contains_of_emplace _ _ _ h.2⟩
  · intro path
    simp only [AddMusic]
    split
    · simp [Outcome.Returns]
    · split
      · simp [Outcome.Returns]
      · simp only [make_shared, Option.isNone_some, Bool.false_eq_true, if_false]
        intro h
        exact ⟨rfl, StdMap.contains_of_emplace _ _ _ h.2⟩
  · intro path
    simp only [AddSoundFx]
    split
    · simp [Outcome.Returns]
    · split
      · simp [Outcome.Returns]
      · intro h
        exact ⟨rfl, StdMap.contains_of_emplace _ _ _ h.2⟩
  · intro pPrefab
    simp only [AddPrefab]
    split
    · simp [Outcome.Returns]
    · intro h
      exact ⟨rfl, StdMap.contains_of_emplace _ _ _ h.2⟩

/-- Witness of the amended C5: a sound effect is added to the empty manager and is then
reported by CheckHasAsset under the sound-fx tag. -/
theorem checkHasAsset_after_add_witness :
    (empty.AddSoundFx succeeding "jump" "jump.wav").Returns true ∧
    ((empty.AddSoundFx succeeding "jump" "jump.wav").state.CheckHasAsset
      "jump" .SOUNDFX).Returns true :=
  ⟨⟨rfl, rfl⟩,
    (checkHasAsset_after_add empty succeeding "jump").2.2.2.2.2.1 "jump.wav" ⟨rfl, rfl⟩⟩

end AssetManager

/-! ## The category switchboard -/

namespace StdMap

variable {β : Type}

theorem find_filter_ne (m : StdMap β) (N k : String) :
    find (m.filter (fun pair => !decide (pair.1 = N))) k = if k = N then none else find m k := by
  induction m with
  | nil => simp [find]
  | cons hd tl ih =>
    obtain ⟨a, b⟩ := hd
    by_cases hk : k = N
    · subst hk
      simp only [if_true] at ih ⊢
      by_cases ha : a = k
      · simp [List.filter, ha, ih]
      · simp [List.filter, ha, find, ih]
    · simp only [hk, if_false] at ih ⊢
      by_cases ha : a = N
      · subst ha
        have hak : ¬ a = k := fun e => hk e.symm
        simp [List.filter, ih, find, hak]
      · simp [List.filter, ha, find, ih]

theorem filter_eq_length_pos (m : StdMap β) (N : String) :
    decide ((m.filter (fun pair => decide (pair.1 = N))).length > 0) = m.contains N := by
  induction m with
  | nil => simp [contains, find]
  | cons hd tl ih =>
    obtain ⟨a, b⟩ := hd
    by_cases ha : a = N
    · simp [List.filter, ha, contains, find]
    · simpa [List.filter, ha, contains, find] using ih

theorem filter_ne_of_absent (m : StdMap β) (N : String) (h : m.contains N = false) :
    m.filter (fun pair => !decide (pair.1 = N)) = m := by
  induction m with
  | nil => rfl
  | cons hd tl ih =>
    obtain ⟨a, b⟩ := hd
    by_cases ha : a = N
    · simp [contains, find, ha] at h
    · have ht : contains tl N = false := by simpa [contains, find, ha] using h
      simp [List.filter, ha, ih ht]

end StdMap

namespace AssetManager

theorem deleteAsset_prefab_none (s : AssetManager) (ext : Collaborators) (N : String)
    (h : s.GetPrefab N = none) :
    s.DeleteAsset ext N .PREFAB = { value := false, state := s } := by
  simp [DeleteAsset, h]

theorem deleteAsset_prefab_fail (s : AssetManager) (ext : Collaborators) (N : String)
    (p : Prefab) (h : s.GetPrefab N = some p) (hd : ext.PrefabCreator_DeletePrefab p = false) :
    s.DeleteAsset ext N .PREFAB =
      { value := false, state := s, calls := [Call.PrefabCreator_DeletePrefab p] } := by
  simp [DeleteAsset, h, hd]

theorem deleteAsset_prefab_done (s : AssetManager) (ext : Collaborators) (N : String)
    (p : Prefab) (h : s.GetPrefab N = some p) (hd : ext.PrefabCreator_DeletePrefab p = true) :
    s.DeleteAsset ext N .PREFAB =
      { value := decide ((s.m_mapPrefabs.erase N).2 > 0),
        state := { s with m_mapPrefabs := (s.m_mapPrefabs.erase N).1 },
        calls := [Call.PrefabCreator_DeletePrefab p] } := by
  simp [DeleteAsset, h, hd]

end AssetManager

/-! ## Delete -/

/-- Erasing a present key by `erase_if`: at least one entry goes, the key is gone afterwards,
and the lookup of every other key is as before. -/
theorem StdMap.erase_if_present {β : Type} (m : StdMap β) (N : String)
    (h : m.contains N = true) :
    decide ((m.erase_if (fun pair => decide (pair.1 = N))).2 > 0) = true ∧
    (m.erase_if (fun pair => decide (pair.1 = N))).1.contains N = false ∧
    (m.erase_if (fun pair => decide (pair.1 = N))).1.find N = none ∧
    ∀ k, k ≠ N → (m.erase_if (fun pair => decide (pair.1 = N))).1.find k = m.find k := by
  have hf : ∀ k, StdMap.find (m.erase_if (fun pair => decide (pair.1 = N))).1 k =
      if k = N then none else m.find k := fun k => StdMap.find_filter_ne m N k
  refine ⟨?_, ?_, ?_, ?_⟩
  · simp only [StdMap.erase_if]
    rw [StdMap.filter_eq_length_pos m N, h]
  · simp [StdMap.contains, hf N]
  · simp [hf N]
  · intro k hk
    simp [hf k, hk]

/-- Erasing an absent key by `erase_if` removes nothing. -/
theorem StdMap.erase_if_absent {β : Type} (m : StdMap β) (N : String)
    (h : m.contains N = false) :
    m.erase_if (fun pair => decide (pair.1 = N)) = (m, 0) := by
  have h0 : (m.filter (fun pair => decide (pair.1 = N))).length = 0 := by
    have := StdMap.filter_eq_length_pos m N
    rw [h] at this
    simpa using this
  simp only [StdMap.erase_if, h0]
  rw [StdMap.filter_ne_of_absent m N h]

namespace AssetManager

/-- C7: for each simple category among texture, font, music and sound-fx, every state and
every name `N` present in the category map: DeleteAsset returns true; afterwards CheckHasAsset
of `N` returns false and the Get of `N` answers not-found; the lookup of every other name of
the category (whether it is present, and which handle it has) is as before. -/
theorem delete_simple_present (s : AssetManager) (ext : Collaborators) (N : String) :
    (s.present .TEXTURE N = true →
      (s.DeleteAsset ext N .TEXTURE).Returns true ∧
      ((s.DeleteAsset ext N .TEXTURE).state.CheckHasAsset N .TEXTURE).Returns false ∧
      (s.DeleteAsset ext N .TEXTURE).state.GetTexture N = none ∧
      ∀ k, k ≠ N →
        (s.DeleteAsset ext N .TEXTURE).state.m_mapTextures.find k = s.m_mapTextures.find k) ∧
    (s.present .FONT N = true →
      (s.DeleteAsset ext N .FONT).Returns true ∧
      ((s.DeleteAsset ext N .FONT).state.CheckHasAsset N .FONT).Returns false ∧
      (s.DeleteAsset ext N .FONT).state.GetFont N = none ∧
      ∀ k, k ≠ N →
        (s.DeleteAsset ext N .FONT).state.m_mapFonts.find k = s.m_mapFonts.find k) ∧
    (s.present .MUSIC N = true →
      (s.DeleteAsset ext N .MUSIC).Returns true ∧
      ((s.DeleteAsset ext N .MUSIC).state.CheckHasAsset N .MUSIC).Returns false ∧
      (s.DeleteAsset ext N .MUSIC).state.GetMusic N = none ∧
      ∀ k, k ≠ N →
        (s.DeleteAsset ext N .MUSIC).state.m_mapMusic.find k = s.m_mapMusic.find k) ∧
    (s.present .SOUNDFX N = true →
      (s.DeleteAsset ext N .SOUNDFX).Returns true ∧
      ((s.DeleteAsset ext N .SOUNDFX).state.CheckHasAsset N .SOUNDFX).Returns false ∧
      (s.DeleteAsset ext N .SOUNDFX).state.GetSoundFx N = none ∧
      ∀ k, k ≠ N →
        (s.DeleteAsset ext N .SOUNDFX).state.m_mapSoundFx.find k = s.m_mapSoundFx.find k) := by
  refine ⟨?_, ?_, ?_, ?_⟩
  · intro hp
    obtain ⟨h1, h2, h3, h4⟩ := StdMap.erase_if_present s.m_mapTextures N hp
    refine ⟨⟨rfl, h1⟩, ⟨rfl, h2⟩, ?_, h4⟩
    rw [GetTexture_eq]
    simp only [DeleteAsset, h3, Option.join]
    rfl
  · intro hp
    obtain ⟨h1, h2, h3, h4⟩ := StdMap.erase_if_present s.m_mapFonts N hp
    refine ⟨⟨rfl, h1⟩, ⟨rfl, h2⟩, ?_, h4⟩
    rw [GetFont_eq]
    simp only [DeleteAsset, h3, Option.join]
    rfl
  · intro hp
    obtain ⟨h1, h2, h3, h4⟩ := StdMap.erase_if_present s.m_mapMusic N hp
    refine ⟨⟨rfl, h1⟩, ⟨rfl, h2⟩, ?_, h4⟩
    rw [GetMusic_eq]
    simp only [DeleteAsset, h3, Option.join]
    rfl
  · intro hp
    obtain ⟨h1, h2, h3, h4⟩ := StdMap.erase_if_present s.m_mapSoundFx N hp
    refine ⟨⟨rfl, h1⟩, ⟨rfl, h2⟩, ?_, h4⟩
    rw [GetSoundFx_eq]
    simp only [DeleteAsset, h3, Option.join]
    rfl

/-- Witness of C7: deleting "hero" from a manager with the textures "hero" and "tiles" returns
true, "hero" is gone and "tiles" still maps to its handle. -/
theorem delete_simple_present_witness :
    twoTextures.present .TEXTURE "hero" = true ∧
    (twoTextures.DeleteAsset succeeding "hero" .TEXTURE).Returns true ∧
    (twoTextures.DeleteAsset succeeding "hero" .TEXTURE).state.GetTexture "hero" = none ∧
    (twoTextures.DeleteAsset succeeding "hero" .TEXTURE).state.m_mapTextures.find "tiles" =
      twoTextures.m_mapTextures.find "tiles" :=
  have h := (delete_simple_present twoTextures succeeding "hero").1 (by decide)
  ⟨by decide, h.1, h.2.2.1, h.2.2.2 "tiles" (by decide)⟩

/-- A prefab Get that yields a handle found an entry. -/
theorem present_of_getPrefab (s : AssetManager) (N : String) (p : Prefab)
    (h : s.GetPrefab N = some p) : s.m_mapPrefabs.contains N = true := by
  rw [GetPrefab_eq] at h
  cases hf : s.m_mapPrefabs.find N with
  | none => simp [hf] at h
  | some v => simp [StdMap.contains, hf]

/-- C8, refuted as stated: "crate" is present in the prefab map with a null handle (put there
by AddPrefab with a null pointer); DeleteAsset then returns false without invoking the cleanup
procedure, although the cleanup would succeed, and the entry stays. -/
theorem delete_null_prefab_skips_cleanup :
    (empty.AddPrefab "crate" none).state.present .PREFAB "crate" = true ∧
    succeeding.PrefabCreator_DeletePrefab ⟨9, ["crate.json"]⟩ = true ∧
    ((empty.AddPrefab "crate" none).state.DeleteAsset succeeding "crate" .PREFAB).calls = [] ∧
    ((empty.AddPrefab "crate" none).state.DeleteAsset succeeding "crate" .PREFAB).Returns false ∧
    (((empty.AddPrefab "crate" none).state.DeleteAsset succeeding "crate" .PREFAB).state.CheckHasAsset
      "crate" .PREFAB).Returns true := by
  refine ⟨by decide, rfl, by decide, ⟨rfl, rfl⟩, ⟨rfl, by decide⟩⟩

/-- C8, amended: for every name `N` present in the prefab map with a non-null handle `p`,
DeleteAsset with the prefab tag invokes the cleanup procedure on `p` (its only external call);
if the cleanup fails the call returns false, the state is unchanged and CheckHasAsset of `N`
still returns true; if the cleanup succeeds the call returns true and CheckHasAsset of `N`
returns false afterwards. -/
theorem delete_prefab_with_handle (s : AssetManager) (ext : Collaborators) (N : String)
    (p : Prefab) (hp : s.GetPrefab N = some p) :
    (s.DeleteAsset ext N .PREFAB).calls = [Call.PrefabCreator_DeletePrefab p] ∧
    (ext.PrefabCreator_DeletePrefab p = false →
      (s.DeleteAsset ext N .PREFAB).Returns false ∧
      (s.DeleteAsset ext N .PREFAB).state = s ∧
      ((s.DeleteAsset ext N .PREFAB).state.CheckHasAsset N .PREFAB).Returns true) ∧
    (ext.PrefabCreator_DeletePrefab p = true →
      (s.DeleteAsset ext N .PREFAB).Returns true ∧
      ((s.DeleteAsset ext N .PREFAB).state.CheckHasAsset N .PREFAB).Returns false ∧
      (s.DeleteAsset ext N .PREFAB).state.GetPrefab N = none) := by
  have hc := present_of_getPrefab s N p hp
  refine ⟨?_, ?_, ?_⟩
  · cases hd : ext.PrefabCreator_DeletePrefab p
    · rw [deleteAsset_prefab_fail s ext N p hp hd]
    · rw [deleteAsset_prefab_done s ext N p hp hd]
  · intro hd
    rw [deleteAsset_prefab_fail s ext N p hp hd]
    exact ⟨⟨rfl, rfl⟩, rfl, ⟨rfl, hc⟩⟩
  · intro hd
    rw [deleteAsset_prefab_done s ext N p hp hd]
    obtain ⟨h1, h2, h3, _⟩ := StdMap.erase_if_present s.m_mapPrefabs N hc
    refine ⟨⟨rfl, h1⟩, ⟨rfl, h2⟩, ?_⟩
    rw [GetPrefab_eq]
    show (StdMap.find (s.m_mapPrefabs.erase_if (fun pair => decide (pair.1 = N))).1 N).join = none
    rw [h3]
    rfl

/-- Witness of the amended C8 on a manager holding the prefab "crate": with a failing cleanup
the entry stays, with a succeeding cleanup it goes. -/
theorem delete_prefab_with_handle_witness :
    sample.GetPrefab "crate" = some ⟨9, ["crate.json"]⟩ ∧
    ((sample.DeleteAsset failing "crate" .PREFAB).Returns false ∧
      (sample.DeleteAsset failing "crate" .PREFAB).state = sample ∧
      ((sample.DeleteAsset failing "crate" .PREFAB).state.CheckHasAsset
        "crate" .PREFAB).Returns true) ∧
    ((sample.DeleteAsset succeeding "crate" .PREFAB).Returns true ∧
      ((sample.DeleteAsset succeeding "crate" .PREFAB).state.CheckHasAsset
        "crate" .PREFAB).Returns false ∧
      (sample.DeleteAsset succeeding "crate" .PREFAB).state.GetPrefab "crate" = none) :=
  ⟨by decide,
    (delete_prefab_with_handle sample failing "crate" ⟨9, ["crate.json"]⟩ (by decide)).2.1 rfl,
    (delete_prefab_with_handle sample succeeding "crate" ⟨9, ["crate.json"]⟩ (by decide)).2.2 rfl⟩

/-- C9: for every category handled by DeleteAsset (every tag but shader) and every name `N`
absent from the category map, DeleteAsset returns false, leaves the whole manager state
unchanged and makes no external call; in particular the prefab cleanup is not invoked. -/
theorem delete_absent (s : AssetManager) (ext : Collaborators) (N : String) (t : AssetType)
    (ht : t ≠ .SHADER) (habs : s.present t N = false) :
    (s.DeleteAsset ext N t).Returns false ∧
    (s.DeleteAsset ext N t).state = s ∧
    (s.DeleteAsset ext N t).calls = [] := by
  cases t
  case SHADER => exact absurd rfl ht
  case PREFAB =>
    have hc : s.m_mapPrefabs.contains N = false := habs
    have hg : s.GetPrefab N = none := by
      rw [GetPrefab_eq, (StdMap.contains_eq_false_iff _ _).1 hc]
      rfl
    rw [deleteAsset_prefab_none s ext N hg]
    exact ⟨⟨rfl, rfl⟩, rfl, rfl⟩
  all_goals
    simp only [present] at habs
    simp [DeleteAsset, StdMap.erase_if_absent _ N habs, Outcome.Returns]

/-- Witness of C9: deleting the absent prefab "ghost" and the absent texture "ghost" from a
manager that holds other assets. -/
theorem delete_absent_witness :
    sample.present .PREFAB "ghost" = false ∧
    (sample.DeleteAsset succeeding "ghost" .PREFAB).Returns false ∧
    (sample.DeleteAsset succeeding "ghost" .PREFAB).state = sample ∧
    (sample.DeleteAsset succeeding "ghost" .PREFAB).calls = [] :=
  ⟨by decide, delete_absent sample succeeding "ghost" .PREFAB (by decide) (by decide)⟩

/-! ## Rename -/

/-- The key change is refused, with the map untouched, when the old name is absent or the new
name is taken. -/
theorem keyChange_rejected {β : Type} (m : StdMap β) (key change : String)
    (h : m.contains key = false ∨ m.contains change = true) :
    KeyChange m key change = (m, false) := by
  unfold KeyChange
  rcases h with h | h
  · cases hc : m.contains change <;> simp [h]
  · simp [h]

end AssetManager

/-! ## Rename, the accepted case -/

/-- Lookups after the key change of an accepted rename: the new name finds what the old name
found, the old name finds nothing, every other name finds what it found. -/
theorem find_keyChange_map {β : Type} (m : StdMap β) (a b k : String)
    (hb : m.find b = none) (hab : a ≠ b) :
    StdMap.find (m.map (fun pair => if pair.1 = a then (b, pair.2) else pair)) k =
      if k = b then m.find a else if k = a then none else m.find k := by
  induction m with
  | nil => simp [StdMap.find]
  | cons hd tl ih =>
    obtain ⟨x, v⟩ := hd
    simp only [StdMap.find] at hb
    by_cases hxb : x = b
    · simp [hxb] at hb
    · simp only [hxb, if_false] at hb
      have ih2 := ih hb
      have hba : ¬ b = a := fun e => hab e.symm
      rw [List.map_cons]
      by_cases hxa : x = a
      · have e1 : (if (x, v).1 = a then (b, (x, v).2) else (x, v)) = (b, v) := if_pos hxa
        rw [e1]
        simp only [StdMap.find, ih2]
        by_cases hkb : k = b
        · have hbk : b = k := hkb.symm
          simp [hkb, hxa, hab, hba]
        · have hbk : ¬ b = k := fun e => hkb e.symm
          by_cases hka : k = a
          · simp [hkb, hbk, hka, hab, hba]
          · have hxk : ¬ x = k := fun e => hka (e.symm.trans hxa)
            simp [hkb, hbk, hka, hxk, hab, hba]
      · have e1 : (if (x, v).1 = a then (b, (x, v).2) else (x, v)) = (x, v) := if_neg hxa
        rw [e1]
        simp only [StdMap.find, ih2]
        by_cases hkb : k = b
        · have hxk : ¬ x = k := fun e => hxb (e.trans hkb)
          simp [hkb, hxa, hxb, hab, hba]
        · by_cases hka : k = a
          · have hxk : ¬ x = k := fun e => hxa (e.trans hka)
            simp [hkb, hka, hxa, hab, hba]
          · simp [hkb, hka, hab, hba]

/-- An accepted key change: the flag is set and the lookups are those of `find_keyChange_map`. -/
theorem keyChange_accepted {β : Type} (m : StdMap β) (a b : String)
    (ha : m.contains a = true) (hb : m.contains b = false) :
    (KeyChange m a b).2 = true ∧
    ∀ k, StdMap.find (KeyChange m a b).1 k =
      if k = b then m.find a else if k = a then none else m.find k := by
  have hab : a ≠ b := by
    intro e
    rw [e, hb] at ha
    exact absurd ha (by decide)
  have hfb := (StdMap.contains_eq_false_iff m b).1 hb
  refine ⟨by simp [KeyChange, ha, hb], ?_⟩
  intro k
  simp only [KeyChange, ha, hb, Bool.false_eq_true, if_false, Bool.not_true]
  exact find_keyChange_map m a b k hfb hab

namespace AssetManager

/-- C11: for each category among texture, font, music and sound-fx, every state and all names
old, new with old present and new absent in the category map: ChangeAssetName returns true;
afterwards the Get of new yields exactly what the Get of old yielded before, the Get of old
answers not-found, the lookup of every other name of the category is as before, and the maps
of all other categories are unchanged. -/
theorem rename_accepted (s : AssetManager) (sOld sNew : String) :
    (s.present .TEXTURE sOld = true → s.present .TEXTURE sNew = false →
      (s.ChangeAssetName sOld sNew .TEXTURE).Returns true ∧
      (s.ChangeAssetName sOld sNew .TEXTURE).state.GetTexture sNew = s.GetTexture sOld ∧
      (s.ChangeAssetName sOld sNew .TEXTURE).state.GetTexture sOld = none ∧
      (s.ChangeAssetName sOld sNew .TEXTURE).state.present .TEXTURE sOld = false ∧
      (∀ k, k ≠ sOld → k ≠ sNew →
        (s.ChangeAssetName sOld sNew .TEXTURE).state.m_mapTextures.find k =
          s.m_mapTextures.find k) ∧
      sameOutside .TEXTURE s (s.ChangeAssetName sOld sNew .TEXTURE).state) ∧
    (s.present .FONT sOld = true → s.present .FONT sNew = false →
      (s.ChangeAssetName sOld sNew .FONT).Returns true ∧
      (s.ChangeAssetName sOld sNew .FONT).state.GetFont sNew = s.GetFont sOld ∧
      (s.ChangeAssetName sOld sNew .FONT).state.GetFont sOld = none ∧
      (s.ChangeAssetName sOld sNew .FONT).state.present .FONT sOld = false ∧
      (∀ k, k ≠ sOld → k ≠ sNew →
        (s.ChangeAssetName sOld sNew .FONT).state.m_mapFonts.find k = s.m_mapFonts.find k) ∧
      sameOutside .FONT s (s.ChangeAssetName sOld sNew .FONT).state) ∧
    (s.present .MUSIC sOld = true → s.present .MUSIC sNew = false →
      (s.ChangeAssetName sOld sNew .MUSIC).Returns true ∧
      (s.ChangeAssetName sOld sNew .MUSIC).state.GetMusic sNew = s.GetMusic sOld ∧
      (s.ChangeAssetName sOld sNew .MUSIC).state.GetMusic sOld = none ∧
      (s.ChangeAssetName sOld sNew .MUSIC).state.present .MUSIC sOld = false ∧
      (∀ k, k ≠ sOld → k ≠ sNew →
        (s.ChangeAssetName sOld sNew .MUSIC).state.m_mapMusic.find k = s.m_mapMusic.find k) ∧
      sameOutside .MUSIC s (s.ChangeAssetName sOld sNew .MUSIC).state) ∧
    (s.present .SOUNDFX sOld = true → s.present .SOUNDFX sNew = false →
      (s.ChangeAssetName sOld sNew .SOUNDFX).Returns true ∧
      (s.ChangeAssetName sOld sNew .SOUNDFX).state.GetSoundFx sNew = s.GetSoundFx sOld ∧
      (s.ChangeAssetName sOld sNew .SOUNDFX).state.GetSoundFx sOld = none ∧
      (s.ChangeAssetName sOld sNew .SOUNDFX).state.present .SOUNDFX sOld = false ∧
      (∀ k, k ≠ sOld → k ≠ sNew →
        (s.ChangeAssetName sOld sNew .SOUNDFX).state.m_mapSoundFx.find k =
          s.m_mapSoundFx.find k) ∧
      sameOutside .SOUNDFX s (s.ChangeAssetName sOld sNew .SOUNDFX).state) := by
  refine ⟨?_, ?_, ?_, ?_⟩
  · intro ha hb
    have hne : sOld ≠ sNew := by
      intro e
      rw [e, hb] at ha
      exact absurd ha (by decide)
    obtain ⟨h1, h2⟩ := keyChange_accepted s.m_mapTextures sOld sNew ha hb
    refine ⟨⟨rfl, h1⟩, ?_, ?_, ?_, ?_, ?_⟩
    · rw [GetTexture_eq, GetTexture_eq]
      show (StdMap.find (KeyChange s.m_mapTextures sOld sNew).1 sNew).join = _
      rw [h2 sNew]
      simp
    · rw [GetTexture_eq]
      show (StdMap.find (KeyChange s.m_mapTextures sOld sNew).1 sOld).join = _
      rw [h2 sOld]
      simp [hne]
    · show StdMap.contains (KeyChange s.m_mapTextures sOld sNew).1 sOld = false
      simp [StdMap.contains, h2 sOld, hne]
    · intro k hk1 hk2
      show StdMap.find (KeyChange s.m_mapTextures sOld sNew).1 k = _
      rw [h2 k]
      simp [hk1, hk2]
    · simp [ChangeAssetName, sameOutside]
  · intro ha hb
    have hne : sOld ≠ sNew := by
      intro e
      rw [e, hb] at ha
      exact absurd ha (by decide)
    obtain ⟨h1, h2⟩ := keyChange_accepted s.m_mapFonts sOld sNew ha hb
    refine ⟨⟨rfl, h1⟩, ?_, ?_, ?_, ?_, ?_⟩
    · rw [GetFont_eq, GetFont_eq]
      show (StdMap.find (KeyChange s.m_mapFonts sOld sNew).1 sNew).join = _
      rw [h2 sNew]
      simp
    · rw [GetFont_eq]
      show (StdMap.find (KeyChange s.m_mapFonts sOld sNew).1 sOld).join = _
      rw [h2 sOld]
      simp [hne]
    · show StdMap.contains (KeyChange s.m_mapFonts sOld sNew).1 sOld = false
      simp [StdMap.contains, h2 sOld, hne]
    · intro k hk1 hk2
      show StdMap.find (KeyChange s.m_mapFonts sOld sNew).1 k = _
      rw [h2 k]
      simp [hk1, hk2]
    · simp [ChangeAssetName, sameOutside]
  · intro ha hb
    have hne : sOld ≠ sNew := by
      intro e
      rw [e, hb] at ha
      exact absurd ha (by decide)
    obtain ⟨h1, h2⟩ := keyChange_accepted s.m_mapMusic sOld sNew ha hb
    refine ⟨⟨rfl, h1⟩, ?_, ?_, ?_, ?_, ?_⟩
    · rw [GetMusic_eq, GetMusic_eq]
      show (StdMap.find (KeyChange s.m_mapMusic sOld sNew).1 sNew).join = _
      rw [h2 sNew]
      simp
    · rw [GetMusic_eq]
      show (StdMap.find (KeyChange s.m_mapMusic sOld sNew).1 sOld).join = _
      rw [h2 sOld]
      simp [hne]
    · show StdMap.contains (KeyChange s.m_mapMusic sOld sNew).1 sOld = false
      simp [StdMap.contains, h2 sOld, hne]
    · intro k hk1 hk2
      show StdMap.find (KeyChange s.m_mapMusic sOld sNew).1 k = _
      rw [h2 k]
      simp [hk1, hk2]
    · simp [ChangeAssetName, sameOutside]
  · intro ha hb
    have hne : sOld ≠ sNew := by
      intro e
      rw [e, hb] at ha
      exact absurd ha (by decide)
    obtain ⟨h1, h2⟩ := keyChange_accepted s.m_mapSoundFx sOld sNew ha hb
    refine ⟨⟨rfl, h1⟩, ?_, ?_, ?_, ?_, ?_⟩
    · rw [GetSoundFx_eq, GetSoundFx_eq]
      show (StdMap.find (KeyChange s.m_mapSoundFx sOld sNew).1 sNew).join = _
      rw [h2 sNew]
      simp
    · rw [GetSoundFx_eq]
      show (StdMap.find (KeyChange s.m_mapSoundFx sOld sNew).1 sOld).join = _
      rw [h2 sOld]
      simp [hne]
    · show StdMap.contains (KeyChange s.m_mapSoundFx sOld sNew).1 sOld = false
      simp [StdMap.contains, h2 sOld, hne]
    · intro k hk1 hk2
      show StdMap.find (KeyChange s.m_mapSoundFx sOld sNew).1 k = _
      rw [h2 k]
      simp [hk1, hk2]
    · simp [ChangeAssetName, sameOutside]

/-- Witness of C11 on a manager with the textures "hero" and "tiles": "hero" is renamed to the
free name "boss"; "boss" then serves the handle of "hero", "hero" is gone and "tiles" is
untouched. -/
theorem rename_accepted_witness :
    twoTextures.present .TEXTURE "hero" = true ∧
    twoTextures.present .TEXTURE "boss" = false ∧
    (twoTextures.ChangeAssetName "hero" "boss" .TEXTURE).Returns true ∧
    (twoTextures.ChangeAssetName "hero" "boss" .TEXTURE).state.GetTexture "boss" =
      twoTextures.GetTexture "hero" ∧
    (twoTextures.ChangeAssetName "hero" "boss" .TEXTURE).state.GetTexture "hero" = none ∧
    (twoTextures.ChangeAssetName "hero" "boss" .TEXTURE).state.m_mapTextures.find "tiles" =
      twoTextures.m_mapTextures.find "tiles" :=
  have h := (rename_accepted twoTextures "hero" "boss").1 (by decide) (by decide)
  ⟨by decide, by decide, h.1, h.2.1, h.2.2.1, h.2.2.2.2.1 "tiles" (by decide) (by decide)⟩

end AssetManager

/-! ## Key enumeration -/

namespace StdMap

variable {β : Type}

theorem contains_iff_mem_keys (m : StdMap β) (k : String) :
    m.contains k = true ↔ k ∈ m.keys := by
  induction m with
  | nil => simp [contains, find, keys]
  | cons hd tl ih =>
    obtain ⟨a, b⟩ := hd
    by_cases ha : a = k
    · simp [contains, find, keys, ha]
    · have hk : ¬ k = a := fun e => ha e.symm
      have ih2 : (find tl k).isSome = true ↔ k ∈ List.map Prod.fst tl := ih
      simp only [contains, find, keys, ha, if_false, List.map_cons, List.mem_cons, hk, false_or]
      exact ih2

theorem keys_nodup_emplace (m : StdMap β) (k : String) (v : β) (h : m.keys.Nodup) :
    (m.emplace k v).1.keys.Nodup := by
  unfold emplace
  split
  · exact h
  · rename_i hc
    have hk : k ∉ m.keys := fun hmem => hc ((contains_iff_mem_keys m k).2 hmem)
    have : keys (m ++ [(k, v)]) = m.keys ++ [k] := by simp [keys]
    rw [this]
    exact List.Nodup.append h (List.nodup_singleton k) (by
      intro x hx hx2
      rw [List.mem_singleton] at hx2
      exact hk (hx2 ▸ hx))

theorem keys_nodup_filter (m : StdMap β) (pred : String × β → Bool) (h : m.keys.Nodup) :
    keys (m.filter pred) |>.Nodup :=
  List.Nodup.sublist (List.Sublist.map Prod.fst (List.filter_sublist m)) h

theorem find_of_mem_nodup (m : StdMap β) (k : String) (v : β) (hm : (k, v) ∈ m)
    (h : m.keys.Nodup) : m.find k = some v := by
  induction m with
  | nil => simp at hm
  | cons hd tl ih =>
    obtain ⟨a, b⟩ := hd
    have hnd : a ∉ keys tl ∧ (keys tl).Nodup := by simpa [keys] using h
    rcases List.mem_cons.1 hm with he | hmem
    · have h1 : k = a := congrArg Prod.fst he
      have h2 : v = b := congrArg Prod.snd he
      simp [find, h1, h2]
    · have hk : k ∈ keys tl := List.mem_map.2 ⟨(k, v), hmem, rfl⟩
      have hak : ¬ a = k := fun e => hnd.1 (e ▸ hk)
      simp [find, hak, ih hmem hnd.2]

theorem mem_getKeys_iff (m : StdMap β) (pred : String × β → Bool) (n : String) :
    n ∈ GetKeys m pred ↔ ∃ v, (n, v) ∈ m ∧ pred (n, v) = true := by
  simp only [GetKeys, List.mem_map, List.mem_filter]
  constructor
  · rintro ⟨⟨a, b⟩, ⟨hm, hp⟩, rfl⟩
    exact ⟨b, hm, hp⟩
  · rintro ⟨v, hm, hp⟩
    exact ⟨(n, v), ⟨hm, hp⟩, rfl⟩

theorem getKeys_nodup (m : StdMap β) (pred : String × β → Bool) (h : m.keys.Nodup) :
    (GetKeys m pred).Nodup :=
  keys_nodup_filter m pred h

/-- Listing without a predicate on a map with distinct names: exactly the names present. -/
theorem mem_getKeys_all_iff (m : StdMap β) (n : String) :
    n ∈ GetKeys m (fun _ => true) ↔ m.contains n = true := by
  rw [contains_iff_mem_keys]
  simp [GetKeys, keys]

end StdMap

theorem keys_nodup_keyChange {β : Type} (m : StdMap β) (a b : String) (h : m.keys.Nodup) :
    (KeyChange m a b).1.keys.Nodup := by
  unfold KeyChange
  split
  · exact h
  · rename_i hb
    split
    · exact h
    · have hbk : b ∉ m.keys := fun hmem => hb ((StdMap.contains_iff_mem_keys m b).2 hmem)
      have hkeys : StdMap.keys (m.map (fun pair => if pair.1 = a then (b, pair.2) else pair)) =
          m.keys.map (fun k => if k = a then b else k) := by
        simp only [StdMap.keys, List.map_map]
        apply List.map_congr_left
        intro pair _
        by_cases hp : pair.1 = a <;> simp [hp]
      rw [hkeys]
      apply List.Nodup.map_on _ h
      intro x hx y hy hxy
      by_cases h1 : x = a <;> by_cases h2 : y = a
      · rw [h1, h2]
      · simp only [h1, h2, if_true, if_false] at hxy
        exact absurd (hxy ▸ hy) hbk
      · simp only [h1, h2, if_true, if_false] at hxy
        exact absurd (hxy ▸ hx) hbk
      · simpa [h1, h2] using hxy

namespace AssetManager

/-- One operation keeps the names of every category map pairwise distinct. -/
theorem step_keysNodup (s : AssetManager) (ext : Collaborators) (op : Op)
    (hs : s.keysNodup) : (s.step ext op).state.keysNodup := by
  obtain ⟨h1, h2, h3, h4, h5, h6⟩ := hs
  have hs0 : s.keysNodup := ⟨h1, h2, h3, h4, h5, h6⟩
  cases op with
  | AddTexture n p a b =>
    simp only [step, AddTexture]
    generalize (if a = true then TextureType.PIXEL else TextureType.BLENDED) = type
    split
    · exact hs0
    · split
      · exact hs0
      · exact ⟨StdMap.keys_nodup_emplace _ _ _ h1, h2, h3, h4, h5, h6⟩
  | AddTextureFromMemory n d l a b =>
    simp only [step, AddTextureFromMemory]
    split
    · exact hs0
    · split
      · exact hs0
      · exact ⟨StdMap.keys_nodup_emplace _ _ _ h1, h2, h3, h4, h5, h6⟩
  | AddFont n p z =>
    simp only [step, AddFont]
    split
    · exact hs0
    · split
      · exact hs0
      · exact ⟨h1, StdMap.keys_nodup_emplace _ _ _ h2, h3, h4, h5, h6⟩
  | AddFontFromMemory n d z =>
    simp only [step, AddFontFromMemory]
    split
    · exact hs0
    · split
      · exact hs0
      · exact ⟨h1, StdMap.keys_nodup_emplace _ _ _ h2, h3, h4, h5, h6⟩
  | AddShader n v f =>
    simp only [step, AddShader]
    split
    · exact hs0
    · split
      · exact hs0
      · exact ⟨h1, h2, StdMap.keys_nodup_emplace _ _ _ h3, h4, h5, h6⟩
  | AddShaderFromMemory n v f =>
    simp only [step, AddShaderFromMemory]
    split
    · exact hs0
    · exact ⟨h1, h2, StdMap.keys_nodup_emplace _ _ _ h3, h4, h5, h6⟩
  | AddMusic n p =>
    simp only [step, AddMusic]
    split
    · exact hs0
    · split
      · exact hs0
      · simp only [make_shared, Option.isNone_some, Bool.false_eq_true, if_false]
        exact ⟨h1, h2, h3, StdMap.keys_nodup_emplace _ _ _ h4, h5, h6⟩
  | AddSoundFx n p =>
    simp only [step, AddSoundFx]
    split
    · exact hs0
    · split
      · exact hs0
      · exact ⟨h1, h2, h3, h4, StdMap.keys_nodup_emplace _ _ _ h5, h6⟩
  | AddPrefab n h =>
    simp only [step, AddPrefab]
    split
    · exact hs0
    · exact ⟨h1, h2, h3, h4, h5, StdMap.keys_nodup_emplace _ _ _ h6⟩
  | ChangeAssetName a b t =>
    cases t <;> simp only [step, ChangeAssetName]
    · exact ⟨keys_nodup_keyChange _ _ _ h1, h2, h3, h4, h5, h6⟩
    · exact ⟨h1, keys_nodup_keyChange _ _ _ h2, h3, h4, h5, h6⟩
    · exact hs0
    · exact ⟨h1, h2, h3, keys_nodup_keyChange _ _ _ h4, h5, h6⟩
    · exact ⟨h1, h2, h3, h4, keys_nodup_keyChange _ _ _ h5, h6⟩
    · exact hs0
  | DeleteAsset n t =>
    cases t <;> simp only [step, DeleteAsset]
    · exact ⟨StdMap.keys_nodup_filter _ _ h1, h2, h3, h4, h5, h6⟩
    · exact ⟨h1, StdMap.keys_nodup_filter _ _ h2, h3, h4, h5, h6⟩
    · exact hs0
    · exact ⟨h1, h2, h3, StdMap.keys_nodup_filter _ _ h4, h5, h6⟩
    · exact ⟨h1, h2, h3, h4, StdMap.keys_nodup_filter _ _ h5, h6⟩
    · split
      · split
        · exact hs0
        · exact ⟨h1, h2, h3, h4, h5, StdMap.keys_nodup_filter _ _ h6⟩
      · exact hs0

/-- Every state reached from the empty manager has pairwise distinct names in every map. -/
theorem run_keysNodup (ops : List (Collaborators × Op)) (s : AssetManager)
    (hs : s.keysNodup) : (s.run ops).keysNodup := by
  induction ops generalizing s with
  | nil => exact hs
  | cons hd tl ih =>
    obtain ⟨ext, op⟩ := hd
    simp only [run]
    exact ih _ (step_keysNodup s ext op hs)

theorem empty_keysNodup : empty.keysNodup := by
  simp [keysNodup, empty, StdMap.keys]

end AssetManager

/-- Listing the textures that satisfy a predicate on the handle, on a map with distinct names:
exactly the names whose Get yields a handle satisfying it. -/
theorem mem_getKeys_texture_iff (m : StdMap (Option Texture)) (q : Texture → Bool)
    (pred : String × Option Texture → Bool)
    (hpred : ∀ n v, pred (n, v) = true ↔ ∃ t, v = some t ∧ q t = true)
    (h : m.keys.Nodup) (n : String) :
    n ∈ GetKeys m pred ↔ ∃ t, (m.find n).join = some t ∧ q t = true := by
  rw [StdMap.mem_getKeys_iff]
  constructor
  · rintro ⟨v, hm, hp⟩
    obtain ⟨t, rfl, hq⟩ := (hpred n v).1 hp
    exact ⟨t, by rw [StdMap.find_of_mem_nodup m n (some t) hm h]; rfl, hq⟩
  · rintro ⟨t, hf, hq⟩
    cases hfn : m.find n with
    | none => simp [hfn] at hf
    | some v =>
      rw [hfn] at hf
      have hv : v = some t := by simpa [Option.join] using hf
      subst hv
      exact ⟨some t, StdMap.mem_of_find m n _ hfn, (hpred n (some t)).2 ⟨t, rfl, hq⟩⟩

theorem isTilesetPair_iff (n : String) (v : Option Texture) :
    isTilesetPair (n, v) = true ↔ ∃ t, v = some t ∧ t.IsTileset = true := by
  cases v <;> simp [isTilesetPair]

theorem isNotEditorPair_iff (n : String) (v : Option Texture) :
    isNotEditorPair (n, v) = true ↔ ∃ t, v = some t ∧ (!t.IsEditorTexture) = true := by
  cases v <;> simp [isNotEditorPair]

namespace AssetManager

/-- C12: in every state reached from the empty manager by a sequence of operations (Add and
Delete, and renames as well), key enumeration lists each name once and lists exactly the names
whose stored handle satisfies the predicate: GetTilesetNames the texture names whose handle has
the tileset flag set; GetAssetKeyNames for the texture tag the texture names whose handle is
not editor-only; GetAssetKeyNames for the font, sound-fx, music and prefab tags all names of
that category. -/
theorem key_enumeration_exact (ops : List (Collaborators × Op)) (n : String) :
    ((empty.run ops).GetTilesetNames.Nodup ∧
      (n ∈ (empty.run ops).GetTilesetNames ↔
        ∃ t, (empty.run ops).GetTexture n = some t ∧ t.IsTileset = true)) ∧
    (((empty.run ops).GetAssetKeyNames .TEXTURE).bAsserted = false ∧
      ((empty.run ops).GetAssetKeyNames .TEXTURE).value.Nodup ∧
      (n ∈ ((empty.run ops).GetAssetKeyNames .TEXTURE).value ↔
        ∃ t, (empty.run ops).GetTexture n = some t ∧ t.IsEditorTexture = false)) ∧
    (((empty.run ops).GetAssetKeyNames .FONT).bAsserted = false ∧
      ((empty.run ops).GetAssetKeyNames .FONT).value.Nodup ∧
      (n ∈ ((empty.run ops).GetAssetKeyNames .FONT).value ↔
        (empty.run ops).present .FONT n = true)) ∧
    (((empty.run ops).GetAssetKeyNames .SOUNDFX).bAsserted = false ∧
      ((empty.run ops).GetAssetKeyNames .SOUNDFX).value.Nodup ∧
      (n ∈ ((empty.run ops).GetAssetKeyNames .SOUNDFX).value ↔
        (empty.run ops).present .SOUNDFX n = true)) ∧
    (((empty.run ops).GetAssetKeyNames .MUSIC).bAsserted = false ∧
      ((empty.run ops).GetAssetKeyNames .MUSIC).value.Nodup ∧
      (n ∈ ((empty.run ops).GetAssetKeyNames .MUSIC).value ↔
        (empty.run ops).present .MUSIC n = true)) ∧
    (((empty.run ops).GetAssetKeyNames .PREFAB).bAsserted = false ∧
      ((empty.run ops).GetAssetKeyNames .PREFAB).value.Nodup ∧
      (n ∈ ((empty.run ops).GetAssetKeyNames .PREFAB).value ↔
        (empty.run ops).present .PREFAB n = true)) := by
  obtain ⟨h1, h2, _, h4, h5, h6⟩ := run_keysNodup ops empty empty_keysNodup
  refine ⟨⟨?_, ?_⟩, ⟨rfl, ?_, ?_⟩, ⟨rfl, ?_, ?_⟩, ⟨rfl, ?_, ?_⟩, ⟨rfl, ?_, ?_⟩, ⟨rfl, ?_, ?_⟩⟩
  · exact StdMap.getKeys_nodup _ _ h1
  · rw [GetTexture_eq]
    exact mem_getKeys_texture_iff _ Texture.IsTileset _ isTilesetPair_iff h1 n
  · exact StdMap.getKeys_nodup _ _ h1
  · rw [GetTexture_eq]
    have := mem_getKeys_texture_iff (empty.run ops).m_mapTextures
      (fun t => !t.IsEditorTexture) _ isNotEditorPair_iff h1 n
    simpa using this
  · exact StdMap.getKeys_nodup _ _ h2
  · exact StdMap.mem_getKeys_all_iff _ n
  · exact StdMap.getKeys_nodup _ _ h5
  · exact StdMap.mem_getKeys_all_iff _ n
  · exact StdMap.getKeys_nodup _ _ h4
  · exact StdMap.mem_getKeys_all_iff _ n
  · exact StdMap.getKeys_nodup _ _ h6
  · exact StdMap.mem_getKeys_all_iff _ n

end AssetManager

/-! ## Independence of the categories -/

namespace AssetManager

/-- One operation leaves the maps of all categories but its own as they were. -/
theorem step_sameOutside (s : AssetManager) (ext : Collaborators) (op : Op) :
    sameOutside op.category s (s.step ext op).state := by
  cases op with
  | AddTexture n p a b =>
    simp only [step, AddTexture, Op.category]
    generalize (if a = true then TextureType.PIXEL else TextureType.BLENDED) = type
    split
    · simp [sameOutside]
    · split <;> simp [sameOutside]
  | AddTextureFromMemory n d l a b =>
    simp only [step, AddTextureFromMemory, Op.category]
    split
    · simp [sameOutside]
    · split <;> simp [sameOutside]
  | AddFont n p z =>
    simp only [step, AddFont, Op.category]
    split
    · simp [sameOutside]
    · split <;> simp [sameOutside]
  | AddFontFromMemory n d z =>
    simp only [step, AddFontFromMemory, Op.category]
    split
    · simp [sameOutside]
    · split <;> simp [sameOutside]
  | AddShader n v f =>
    simp only [step, AddShader, Op.category]
    split
    · simp [sameOutside]
    · split <;> simp [sameOutside]
  | AddShaderFromMemory n v f =>
    simp only [step, AddShaderFromMemory, Op.category]
    split <;> simp [sameOutside]
  | AddMusic n p =>
    simp only [step, AddMusic, Op.category]
    split
    · simp [sameOutside]
    · split <;> simp [sameOutside, make_shared]
  | AddSoundFx n p =>
    simp only [step, AddSoundFx, Op.category]
    split
    · simp [sameOutside]
    · split <;> simp [sameOutside]
  | AddPrefab n h =>
    simp only [step, AddPrefab, Op.category]
    split <;> simp [sameOutside]
  | ChangeAssetName a b t =>
    cases t <;> simp [step, ChangeAssetName, Op.category, sameOutside]
  | DeleteAsset n t =>
    cases t
    case PREFAB =>
      simp only [step, Op.category]
      cases hg : s.GetPrefab n with
      | none => simp [deleteAsset_prefab_none s ext n hg, sameOutside]
      | some p =>
        cases hd : ext.PrefabCreator_DeletePrefab p
        · simp [deleteAsset_prefab_fail s ext n p hg hd, sameOutside]
        · simp [deleteAsset_prefab_done s ext n p hg hd, sameOutside]
    all_goals simp [step, DeleteAsset, Op.category, sameOutside]

/-- The result of an operation and what it does to the map of its category depend on that map
alone: two managers that agree on the category get the same value, the same assertion flag and
again agree on the category. -/
theorem step_agreeOn (s r : AssetManager) (ext : Collaborators) (op : Op)
    (h : agreeOn op.category s r) :
    (s.step ext op).value = (r.step ext op).value ∧
    (s.step ext op).bAsserted = (r.step ext op).bAsserted ∧
    (s.step ext op).calls = (r.step ext op).calls ∧
    agreeOn op.category (s.step ext op).state (r.step ext op).state := by
  cases op with
  | AddTexture n p a b =>
    simp only [Op.category, agreeOn] at h
    simp only [step, AddTexture, Op.category, agreeOn, h]
    generalize (if a = true then TextureType.PIXEL else TextureType.BLENDED) = type
    split
    · simp [h]
    · split <;> simp [h]
  | AddTextureFromMemory n d l a b =>
    simp only [Op.category, agreeOn] at h
    simp only [step, AddTextureFromMemory, Op.category, agreeOn, h]
    split
    · simp [h]
    · split <;> simp [h]
  | AddFont n p z =>
    simp only [Op.category, agreeOn] at h
    simp only [step, AddFont, Op.category, agreeOn, h]
    split
    · simp [h]
    · split <;> simp [h]
  | AddFontFromMemory n d z =>
    simp only [Op.category, agreeOn] at h
    simp only [step, AddFontFromMemory, Op.category, agreeOn, h]
    split
    · simp [h]
    · split <;> simp [h]
  | AddShader n v f =>
    simp only [Op.category, agreeOn] at h
    simp only [step, AddShader, Op.category, agreeOn, h]
    split
    · simp [h]
    · split <;> simp [h]
  | AddShaderFromMemory n v f =>
    simp only [Op.category, agreeOn] at h
    simp only [step, AddShaderFromMemory, Op.category, agreeOn, h]
    split <;> simp [h]
  | AddMusic n p =>
    simp only [Op.category, agreeOn] at h
    simp only [step, AddMusic, Op.category, agreeOn, h]
    split
    · simp [h]
    · split <;> simp [make_shared, h]
  | AddSoundFx n p =>
    simp only [Op.category, agreeOn] at h
    simp only [step, AddSoundFx, Op.category, agreeOn, h]
    split
    · simp [h]
    · split <;> simp [h]
  | AddPrefab n p =>
    simp only [Op.category, agreeOn] at h
    simp only [step, AddPrefab, Op.category, agreeOn, h]
    split <;> simp [h]
  | ChangeAssetName a b t =>
    cases t <;> simp only [Op.category, agreeOn] at h <;>
      simp [step, ChangeAssetName, Op.category, agreeOn, h]
  | DeleteAsset n t =>
    cases t
    case PREFAB =>
      simp only [Op.category, agreeOn] at h
      have hg : r.GetPrefab n = s.GetPrefab n := by rw [GetPrefab_eq, GetPrefab_eq, h]
      simp only [step, Op.category, agreeOn]
      cases hs : s.GetPrefab n with
      | none =>
        rw [deleteAsset_prefab_none s ext n hs, deleteAsset_prefab_none r ext n (hg.trans hs)]
        exact ⟨rfl, rfl, rfl, h⟩
      | some p =>
        cases hd : ext.PrefabCreator_DeletePrefab p
        · rw [deleteAsset_prefab_fail s ext n p hs hd,
            deleteAsset_prefab_fail r ext n p (hg.trans hs) hd]
          exact ⟨rfl, rfl, rfl, h⟩
        · rw [deleteAsset_prefab_done s ext n p hs hd,
            deleteAsset_prefab_done r ext n p (hg.trans hs) hd]
          simp [h]
    all_goals
      simp only [Op.category, agreeOn] at h
      simp [step, DeleteAsset, Op.category, agreeOn, h]

/-- C13: categories are independent namespaces. For every state and every Add, ChangeAssetName
or DeleteAsset, the maps of all categories other than the targeted one are unchanged; and the
operation returns the same result on any two states that hold the same map for the targeted
category, whatever the other categories contain, so an Add of a name succeeds or fails
regardless of that name being present elsewhere. -/
theorem categories_independent (s r : AssetManager) (ext : Collaborators) (op : Op) :
    sameOutside op.category s (s.step ext op).state ∧
    (agreeOn op.category s r →
      (s.step ext op).value = (r.step ext op).value ∧
      (s.step ext op).bAsserted = (r.step ext op).bAsserted ∧
      agreeOn op.category (s.step ext op).state (r.step ext op).state) := by
  refine ⟨step_sameOutside s ext op, ?_⟩
  intro h
  obtain ⟨h1, h2, _, h4⟩ := step_agreeOn s r ext op h
  exact ⟨h1, h2, h4⟩

/-- Witness of C13: a texture named "play_button" is added to a manager that already holds a
sound effect "play_button", exactly as it is added to the empty manager; the sound effect is
untouched and both names then exist side by side. -/
theorem categories_independent_witness :
    agreeOn .TEXTURE empty withSound ∧
    withSound.present .SOUNDFX "play_button" = true ∧
    (withSound.step succeeding (.AddTexture "play_button" "play.png" true false)).value = true ∧
    (withSound.step succeeding
      (.AddTexture "play_button" "play.png" true false)).state.m_mapSoundFx =
        withSound.m_mapSoundFx ∧
    (withSound.step succeeding
      (.AddTexture "play_button" "play.png" true false)).state.present .TEXTURE "play_button" =
        true :=
  have h := categories_independent empty withSound succeeding
    (.AddTexture "play_button" "play.png" true false)
  have h2 := categories_independent withSound empty succeeding
    (.AddTexture "play_button" "play.png" true false)
  ⟨rfl, by decide, (h.2 rfl).1.symm.trans rfl, h2.1.2.2.2.2.1 (by decide), by decide⟩

end AssetManager

/-! ## The texture scenario -/

namespace AssetManager

/-- AddTexture on an absent name with a succeeding loader, spelled out. -/
theorem addTexture_loaded (s : AssetManager) (ext : Collaborators) (n path : String)
    (pixelArt bTileset : Bool) (h : Texture) (habs : s.m_mapTextures.contains n = false)
    (hload : ext.TextureLoader_Create (if pixelArt then .PIXEL else .BLENDED) path bTileset =
      some h) :
    s.AddTexture ext n path pixelArt bTileset =
      { value := true,
        state := { s with m_mapTextures := s.m_mapTextures ++ [(n, some h)] },
        calls := [Call.TextureLoader_Create (if pixelArt then .PIXEL else .BLENDED)
          path bTileset] } := by
  have hf : (s.m_mapTextures.find n).isSome = false := habs
  simp [AddTexture, hf, hload, StdMap.emplace, habs]

/-- C14: the end-to-end texture scenario. From any state with no texture named "hero", with a
texture loader that succeeds and yields a handle carrying the requested filtering mode and
tileset flag: AddTexture of "hero" with pixel art and no tileset returns true; GetTexture of
"hero" then yields that non-null handle, in pixel-art mode and with the tileset flag false;
GetTilesetNames does not contain "hero"; DeleteAsset of "hero" with the texture tag returns
true; and GetTexture of "hero" then answers not-found. -/
theorem texture_scenario (s : AssetManager) (ext ext2 : Collaborators) (h : Texture)
    (habs : s.present .TEXTURE "hero" = false)
    (hload : ext.TextureLoader_Create .PIXEL "hero.png" false = some h)
    (hmode : h.type = .PIXEL) (htile : h.IsTileset = false) :
    (s.AddTexture ext "hero" "hero.png" true false).Returns true ∧
    (∃ t, (s.AddTexture ext "hero" "hero.png" true false).state.GetTexture "hero" = some t ∧
      t = h ∧ t.type = .PIXEL ∧ t.IsTileset = false) ∧
    "hero" ∉ (s.AddTexture ext "hero" "hero.png" true false).state.GetTilesetNames ∧
    ((s.AddTexture ext "hero" "hero.png" true false).state.DeleteAsset
      ext2 "hero" .TEXTURE).Returns true ∧
    ((s.AddTexture ext "hero" "hero.png" true false).state.DeleteAsset
      ext2 "hero" .TEXTURE).state.GetTexture "hero" = none := by
  have hc : s.m_mapTextures.contains "hero" = false := habs
  have hadd := addTexture_loaded s ext "hero" "hero.png" true false h hc (by simpa using hload)
  rw [hadd]
  have hfind : StdMap.find (s.m_mapTextures ++ [("hero", some h)]) "hero" = some (some h) := by
    rw [StdMap.find_append_of_none _ _ _ _ ((StdMap.contains_eq_false_iff _ _).1 hc)]
    simp
  have hpres : StdMap.contains (s.m_mapTextures ++ [("hero", some h)]) "hero" = true := by
    simp [StdMap.contains, hfind]
  obtain ⟨d1, _, d3, _⟩ := StdMap.erase_if_present _ "hero" hpres
  refine ⟨⟨rfl, rfl⟩, ⟨h, ?_, rfl, hmode, htile⟩, ?_, ⟨rfl, d1⟩, ?_⟩
  · rw [GetTexture_eq]
    show (StdMap.find (s.m_mapTextures ++ [("hero", some h)]) "hero").join = some h
    rw [hfind]
    rfl
  · intro hmem
    obtain ⟨v, hv, hp⟩ := (StdMap.mem_getKeys_iff _ _ _).1 hmem
    rcases List.mem_append.1 hv with hv | hv
    · have hk : "hero" ∈ StdMap.keys s.m_mapTextures := List.mem_map.2 ⟨("hero", v), hv, rfl⟩
      have := (StdMap.contains_iff_mem_keys _ _).2 hk
      rw [hc] at this
      exact absurd this (by decide)
    · have hv2 : v = some h := by simpa using hv
      subst hv2
      simp [isTilesetPair, htile] at hp
  · rw [GetTexture_eq]
    show (StdMap.find (StdMap.erase_if (s.m_mapTextures ++ [("hero", some h)])
      (fun pair => decide (pair.1 = "hero"))).1 "hero").join = none
    rw [d3]
    rfl

/-- Witness of C14 on a manager that already holds the tileset texture "tiles". -/
theorem texture_scenario_witness :
    (((empty.AddTexture succeeding "tiles" "tiles.png" false true).state.AddTexture
        succeeding "hero" "hero.png" true false).Returns true ∧
      "hero" ∉ ((empty.AddTexture succeeding "tiles" "tiles.png" false true).state.AddTexture
        succeeding "hero" "hero.png" true false).state.GetTilesetNames) ∧
    ((empty.AddTexture succeeding "tiles" "tiles.png" false true).state.AddTexture
        succeeding "hero" "hero.png" true false).state.GetTilesetNames = ["tiles"] :=
  have h := texture_scenario (empty.AddTexture succeeding "tiles" "tiles.png" false true).state
    succeeding failing ⟨1, .PIXEL, false, false⟩ (by decide) rfl rfl rfl
  ⟨⟨h.1, h.2.2.1⟩, by decide⟩

end AssetManager

/-! ## The default font at startup -/

namespace AssetManager

/-- C15: CreateDefaultFonts loads the built-in font through the Add-from-memory path. On every
state its outcome is that of AddFontFromMemory for the name "pixel" and the compiled-in font
data; when it returns true the font map has gained the entry "pixel" with the loaded font, when
it returns false the state is unchanged, and it returns false when a font named "pixel" is
already registered. And whenever the CreateDefaultFonts call inside Application::Initialize
returns false, Initialize returns false. -/
theorem createDefaultFonts_refines (s : AssetManager) (ext : Collaborators) (hdr : Declared) :
    s.CreateDefaultFonts ext hdr =
      s.AddFontFromMemory ext "pixel" hdr.pixel_font hdr.fontSize ∧
    ((s.CreateDefaultFonts ext hdr).value = true →
      s.present .FONT "pixel" = false ∧
      (s.CreateDefaultFonts ext hdr).state.m_mapFonts =
        s.m_mapFonts ++ [("pixel", ext.FontLoader_CreateFromMemory hdr.pixel_font hdr.fontSize)] ∧
      (s.CreateDefaultFonts ext hdr).state.GetFont "pixel" =
        ext.FontLoader_CreateFromMemory hdr.pixel_font hdr.fontSize ∧
      (s.CreateDefaultFonts ext hdr).state.GetFont "pixel" ≠ none) ∧
    ((s.CreateDefaultFonts ext hdr).value = false → (s.CreateDefaultFonts ext hdr).state = s) ∧
    (s.present .FONT "pixel" = true → (s.CreateDefaultFonts ext hdr).value = false) ∧
    (∀ (pf : SCION_EDITOR.Platform) (tex : SCION_EDITOR.EditorTextures)
        (assetManager : AssetManager) (r : Outcome Bool),
      SCION_EDITOR.Application.beforeDefaultFonts pf ext hdr tex assetManager = some r →
      (r.state.CreateDefaultFonts ext hdr).value = false →
      (SCION_EDITOR.Application.Initialize pf ext hdr tex assetManager).value = false) := by
  have heq : s.CreateDefaultFonts ext hdr =
      s.AddFontFromMemory ext "pixel" hdr.pixel_font hdr.fontSize := by
    simp only [CreateDefaultFonts, AddFontFromMemory]
    split
    · simp
    · split
      · simp
      · cases hv : (s.m_mapFonts.emplace "pixel"
          (ext.FontLoader_CreateFromMemory hdr.pixel_font hdr.fontSize)).2 <;> simp [hv]
  refine ⟨heq, ?_, ?_, ?_, ?_⟩
  · rw [heq]
    simp only [AddFontFromMemory]
    split
    · simp
    · rename_i hc
      have hc2 : s.m_mapFonts.contains "pixel" = false := by simpa using hc
      split
      · simp
      · rename_i hl
        intro _
        obtain ⟨_, h2⟩ := StdMap.emplace_absent s.m_mapFonts "pixel"
          (ext.FontLoader_CreateFromMemory hdr.pixel_font hdr.fontSize) hc2
        have hget : GetFont { s with m_mapFonts := (s.m_mapFonts.emplace "pixel"
            (ext.FontLoader_CreateFromMemory hdr.pixel_font hdr.fontSize)).1 } "pixel" =
            ext.FontLoader_CreateFromMemory hdr.pixel_font hdr.fontSize := by
          rw [GetFont_eq]
          show (StdMap.find (s.m_mapFonts.emplace "pixel" _).1 "pixel").join = _
          rw [h2]
          rfl
        refine ⟨hc2, by simp [StdMap.emplace, hc2], hget, ?_⟩
        rw [hget]
        intro hnone
        rw [hnone] at hl
        exact hl rfl
  · rw [heq]
    simp only [AddFontFromMemory]
    split
    · simp
    · rename_i hc
      have hc2 : s.m_mapFonts.contains "pixel" = false := by simpa using hc
      split
      · simp
      · simp [StdMap.emplace, hc2]
  · intro hp
    have hc : s.m_mapFonts.contains "pixel" = true := hp
    rw [heq]
    simp [AddFontFromMemory, hc]
  · intro pf tex assetManager r hr hf
    simp [SCION_EDITOR.Application.Initialize, hr, hf]

/-- Witness of C15: on the empty manager with a working font loader the entry "pixel" is
gained; and with a platform on which every step succeeds but a font loader that fails, the
call of CreateDefaultFonts inside Initialize returns false and so does Initialize. -/
theorem createDefaultFonts_refines_witness :
    ((empty.CreateDefaultFonts succeeding Declared.sample).value = true ∧
      (empty.CreateDefaultFonts succeeding Declared.sample).state.GetFont "pixel" =
        some ⟨4, 32⟩) ∧
    ((SCION_EDITOR.Application.beforeDefaultFonts SCION_EDITOR.Application.allGood fontless
        Declared.sample SCION_EDITOR.Application.tinyTextures empty).isSome = true ∧
      (SCION_EDITOR.Application.Initialize SCION_EDITOR.Application.allGood fontless
        Declared.sample SCION_EDITOR.Application.tinyTextures empty).value = false) :=
  have hsome : (SCION_EDITOR.Application.beforeDefaultFonts SCION_EDITOR.Application.allGood
      fontless Declared.sample SCION_EDITOR.Application.tinyTextures empty).isSome = true := by
    decide
  ⟨⟨rfl, ((createDefaultFonts_refines empty succeeding Declared.sample).2.1 rfl).2.2.1.trans rfl⟩,
    hsome,
    (createDefaultFonts_refines empty fontless Declared.sample).2.2.2.2
      SCION_EDITOR.Application.allGood SCION_EDITOR.Application.tinyTextures empty
      ((SCION_EDITOR.Application.beforeDefaultFonts SCION_EDITOR.Application.allGood fontless
        Declared.sample SCION_EDITOR.Application.tinyTextures empty).get hsome)
      (Option.some_get hsome).symm rfl⟩

end AssetManager

/-! ## Sound-effect duration and the scripting bridge -/

namespace AssetManager

/-- AddSoundFx on an absent name with a succeeding loader, spelled out. -/
theorem addSoundFx_loaded (s : AssetManager) (ext : Collaborators) (n path : String)
    (c : Mix_Chunk) (habs : s.m_mapSoundFx.contains n = false)
    (hload : ext.Mix_LoadWAV path = some c) :
    (s.AddSoundFx ext n path).value = true ∧
    (s.AddSoundFx ext n path).state.GetSoundFx n =
      some ⟨⟨n, path, (divDouble (toDouble c.alen) double_179_4).toRat⟩, c⟩ := by
  obtain ⟨h1, h2⟩ := StdMap.emplace_absent s.m_mapSoundFx n
    (some (SoundFX.mk ⟨n, path, (divDouble (toDouble c.alen) double_179_4).toRat⟩ c)) habs
  simp [AddSoundFx, habs, hload, GetSoundFx, make_shared, h1, h2]

/-- The literal 179.4 as a `double`, evaluated. -/
theorem double_179_4_value : double_179_4 = ⟨6312076352736461, -45⟩ := by
  decide

set_option maxRecDepth 20000 in
/-- The `double` quotient of 1000 by 179.4, evaluated: 6275919213169587 / 2 ^ 50. -/
theorem double_quotient_1000 :
    divDouble (toDouble 1000) double_179_4 = ⟨6275919213169587, -50⟩ := by
  decide

/-- C16: the duration stored by AddSoundFx is the byte length of the decoded chunk divided by
179.4 in `double` arithmetic (the length converted to `double`, the literal taken as the
nearest `double`, the quotient rounded to nearest) and nothing else enters it: for any two
successful loads, in any two states, under any two names and paths, whose chunks have the same
byte length, the stored durations are equal. -/
theorem soundfx_duration_of_length (s1 s2 : AssetManager) (ext1 ext2 : Collaborators)
    (n1 n2 path1 path2 : String) (c1 c2 : Mix_Chunk)
    (habs1 : s1.present .SOUNDFX n1 = false) (habs2 : s2.present .SOUNDFX n2 = false)
    (hload1 : ext1.Mix_LoadWAV path1 = some c1) (hload2 : ext2.Mix_LoadWAV path2 = some c2)
    (hlen : c1.alen = c2.alen) :
    ∃ f1 f2 : SoundFX,
      (s1.AddSoundFx ext1 n1 path1).Returns true ∧
      (s2.AddSoundFx ext2 n2 path2).Returns true ∧
      (s1.AddSoundFx ext1 n1 path1).state.GetSoundFx n1 = some f1 ∧
      (s2.AddSoundFx ext2 n2 path2).state.GetSoundFx n2 = some f2 ∧
      f1.params.duration = (divDouble (toDouble c1.alen) double_179_4).toRat ∧
      f2.params.duration = (divDouble (toDouble c2.alen) double_179_4).toRat ∧
      f1.params.duration = f2.params.duration := by
  obtain ⟨v1, g1⟩ := addSoundFx_loaded s1 ext1 n1 path1 c1 habs1 hload1
  obtain ⟨v2, g2⟩ := addSoundFx_loaded s2 ext2 n2 path2 c2 habs2 hload2
  have hb1 : (s1.AddSoundFx ext1 n1 path1).bAsserted = false := by
    unfold AddSoundFx
    split
    · rfl
    · split <;> rfl
  have hb2 : (s2.AddSoundFx ext2 n2 path2).bAsserted = false := by
    unfold AddSoundFx
    split
    · rfl
    · split <;> rfl
  refine ⟨_, _, ⟨hb1, v1⟩, ⟨hb2, v2⟩, g1, g2, rfl, rfl, ?_⟩
  show (divDouble (toDouble c1.alen) double_179_4).toRat = (divDouble (toDouble c2.alen) double_179_4).toRat
  rw [hlen]

/-- Witness of C16: a 1000-byte chunk loaded as "jump" into the empty manager and as "land"
into a manager that already holds a sound effect. Both stored durations are the `double`
6275919213169587 / 2 ^ 50 (about 5.574136008918617), which is not the exact quotient
5000 / 897. -/
theorem soundfx_duration_of_length_witness :
    ∃ f1 f2 : SoundFX,
      (empty.AddSoundFx shortClip "jump" "jump.wav").state.GetSoundFx "jump" = some f1 ∧
      (withSound.AddSoundFx shortClip "land" "land.wav").state.GetSoundFx "land" = some f2 ∧
      f1.params.duration = 6275919213169587 / 2 ^ 50 ∧
      f1.params.duration ≠ 5000 / 897 ∧
      f1.params.duration = f2.params.duration :=
  have ⟨f1, f2, _, _, g1, g2, d1, _, e⟩ :=
    soundfx_duration_of_length empty withSound shortClip shortClip "jump" "land"
      "jump.wav" "land.wav" ⟨9, 1000⟩ ⟨9, 1000⟩ (by decide) (by decide) rfl rfl rfl
  have hd := double_quotient_1000
  have hv : (divDouble (toDouble 1000) double_179_4).toRat = 6275919213169587 / 2 ^ 50 := by
    have h1 : ((-50 : Int)).toNat = 0 := by decide
    have h2 : (-(-50 : Int)).toNat = 50 := by decide
    rw [hd]
    simp only [Double.toRat, h1, h2]
    norm_num
  ⟨f1, f2, g1, g2, d1.trans hv, by rw [d1.trans hv]; norm_num, e⟩

end AssetManager

/-- C17: each function of the scripting bridge returns the same boolean and produces the same
manager state as the Add operation it wraps: `add_texture` with three arguments as AddTexture
with the tileset flag false, `add_texture` with four arguments as AddTexture, `add_music` as
AddMusic, `add_soundfx` as AddSoundFx and `add_font` as AddFont, on every state and for all
arguments. -/
theorem lua_bridge_refines (asset_manager : AssetManager) (ext : Collaborators)
    (name path : String) (pixel_art bTileset : Bool) (fontSize : ℚ) :
    ((LuaAssetManager.add_texture asset_manager ext name path pixel_art).value =
        (asset_manager.AddTexture ext name path pixel_art false).value ∧
      (LuaAssetManager.add_texture asset_manager ext name path pixel_art).state =
        (asset_manager.AddTexture ext name path pixel_art false).state) ∧
    ((LuaAssetManager.add_texture_bTileset asset_manager ext name path pixel_art bTileset).value =
        (asset_manager.AddTexture ext name path pixel_art bTileset).value ∧
      (LuaAssetManager.add_texture_bTileset asset_manager ext name path pixel_art bTileset).state =
        (asset_manager.AddTexture ext name path pixel_art bTileset).state) ∧
    ((LuaAssetManager.add_music asset_manager ext name path).value =
        (asset_manager.AddMusic ext name path).value ∧
      (LuaAssetManager.add_music asset_manager ext name path).state =
        (asset_manager.AddMusic ext name path).state) ∧
    ((LuaAssetManager.add_soundfx asset_manager ext name path).value =
        (asset_manager.AddSoundFx ext name path).value ∧
      (LuaAssetManager.add_soundfx asset_manager ext name path).state =
        (asset_manager.AddSoundFx ext name path).state) ∧
    ((LuaAssetManager.add_font asset_manager ext name path fontSize).value =
        (asset_manager.AddFont ext name path fontSize).value ∧
      (LuaAssetManager.add_font asset_manager ext name path fontSize).state =
        (asset_manager.AddFont ext name path fontSize).state) :=
  ⟨⟨rfl, rfl⟩, ⟨rfl, rfl⟩, ⟨rfl, rfl⟩, ⟨rfl, rfl⟩, ⟨rfl, rfl⟩⟩

end SCION_RESOURCES

/-! ## Separating parameters -/

namespace SCION_FILESYSTEM

namespace FileProcessor

/-- C19, evaluated where the code departs from it: for the one 40-character parameter
"--project=/home/dev/games/demo_level.s2d" the claim asks for that text followed by one blank,
but `param + ' '` moves the pointer 32 characters on, so SeparateParams returns "evel.s2d", the
tail of the parameter, with no blank; for the short parameter "-v" the pointer leaves the
string and the behaviour is undefined. On the empty list both agree on the empty string. -/
theorem separateParams_moves_pointer :
    (' ').toNat = 32 ∧
    SeparateParams ["--project=/home/dev/games/demo_level.s2d".toList] =
      some "evel.s2d".toList ∧
    separatedByBlanks ["--project=/home/dev/games/demo_level.s2d".toList] =
      "--project=/home/dev/games/demo_level.s2d ".toList ∧
    SeparateParams ["--project=/home/dev/games/demo_level.s2d".toList] ≠
      some (separatedByBlanks ["--project=/home/dev/games/demo_level.s2d".toList]) ∧
    SeparateParams ["-v".toList] = none ∧
    SeparateParams [] = some (separatedByBlanks []) := by
  refine ⟨by decide, by decide, by decide, by decide, by decide, by decide⟩

end FileProcessor

end SCION_FILESYSTEM

namespace SCION_RESOURCES

/-! ## The life of an entry -/

namespace StdMap

variable {β : Type}

theorem evolves_refl (m : StdMap β) : Evolves m m none none := by
  intro k
  exact ⟨fun v hv => Or.inl hv, fun hn => Or.inl hn⟩

theorem evolves_emplace (m : StdMap β) (key : String) (v : β) :
    Evolves m (m.emplace key v).1 none (if (m.emplace key v).2 then some key else none) := by
  unfold emplace
  split
  · exact evolves_refl m
  · intro k
    refine ⟨fun w hw => Or.inl (find_append_of_some m k key v w hw), fun hn => ?_⟩
    rw [find_append_of_none m k key v hn]
    by_cases hk : key = k
    · exact Or.inr (by simp [hk])
    · exact Or.inl (by simp [hk])

theorem evolves_erase_if (m : StdMap β) (n : String) :
    Evolves m (m.erase_if (fun pair => decide (pair.1 = n))).1
      (if m.contains n then some n else none) none := by
  intro k
  have hf : find (m.erase_if (fun pair => decide (pair.1 = n))).1 k =
      if k = n then none else m.find k := find_filter_ne m n k
  refine ⟨fun w hw => ?_, fun hn => Or.inl ?_⟩
  · by_cases hk : k = n
    · refine Or.inr ⟨by rw [hf, if_pos hk], ?_⟩
      have : m.contains n = true := by
        rw [hk] at hw
        simp [contains, hw]
      simp [this, hk]
    · exact Or.inl (by rw [hf, if_neg hk, hw])
  · by_cases hk : k = n
    · rw [hf, if_pos hk]
    · rw [hf, if_neg hk, hn]

end StdMap

theorem evolves_keyChange {β : Type} (m : StdMap β) (a b : String) :
    StdMap.Evolves m (KeyChange m a b).1 (if (KeyChange m a b).2 then some a else none)
      (if (KeyChange m a b).2 then some b else none) := by
  by_cases hrej : m.contains a = false ∨ m.contains b = true
  · rw [AssetManager.keyChange_rejected m a b hrej]
    exact StdMap.evolves_refl m
  · have ha : m.contains a = true := by
      cases h : m.contains a
      · exact absurd (Or.inl h) hrej
      · rfl
    have hb : m.contains b = false := by
      cases h : m.contains b
      · rfl
      · exact absurd (Or.inr h) hrej
    obtain ⟨h1, h2⟩ := keyChange_accepted m a b ha hb
    have hfb := (StdMap.contains_eq_false_iff m b).1 hb
    rw [h1]
    intro k
    refine ⟨fun w hw => ?_, fun hn => ?_⟩
    · have hkb : k ≠ b := by
        intro e
        rw [e, hfb] at hw
        exact absurd hw (by simp)
      by_cases hka : k = a
      · exact Or.inr ⟨by rw [h2 k, if_neg hkb, if_pos hka], by simp [hka]⟩
      · exact Or.inl (by rw [h2 k, if_neg hkb, if_neg hka, hw])
    · by_cases hkb : k = b
      · exact Or.inr (by simp [hkb])
      · have hka : k ≠ a := by
          intro e
          rw [e] at hn
          simp [StdMap.contains, hn] at ha
        exact Or.inl (by rw [h2 k, if_neg hkb, if_neg hka, hn])

/-- From the evolution of a category map to the three facts about one name: its handle is kept
while it stays, it only leaves as `gone`, it only arrives as `come`. -/
theorem entry_facts {β : Type} (ctor : β → Handle) (m m2 : StdMap β)
    (gone come : Option String) (N : String) (hE : StdMap.Evolves m m2 gone come)
    (P Q : Prop) (hgone : gone = some N → P) (hcome : come = some N → Q) :
    (∀ h, (m.find N).map ctor = some h → ((m2.find N).map ctor).isSome = true →
      (m2.find N).map ctor = some h) ∧
    (((m.find N).map ctor).isSome = true → (m2.find N).map ctor = none → P) ∧
    ((m.find N).map ctor = none → ((m2.find N).map ctor).isSome = true → Q) := by
  obtain ⟨hkeep, hfresh⟩ := hE N
  refine ⟨?_, ?_, ?_⟩
  · intro h hh hsome
    cases hf : m.find N with
    | none => simp [hf] at hh
    | some v =>
      rcases hkeep v hf with h2 | ⟨h2, _⟩
      · rw [h2, ← hf]
        exact hh
      · simp [h2] at hsome
  · intro hsome hnone
    cases hf : m.find N with
    | none => simp [hf] at hsome
    | some v =>
      rcases hkeep v hf with h2 | ⟨_, hg⟩
      · simp [h2] at hnone
      · exact hgone hg
  · intro hnone hsome
    have hf : m.find N = none := by simpa using hnone
    rcases hfresh hf with h2 | hc
    · simp [h2] at hsome
    · exact hcome hc

namespace AssetManager

theorem some_of_flag (v : Bool) (n N : String)
    (h : (if v = true then some n else none) = some N) : v = true ∧ n = N := by
  cases v
  · simp at h
  · simpa using h

theorem addTexture_evolves (s : AssetManager) (ext : Collaborators) (n p : String) (a b : Bool) :
    StdMap.Evolves s.m_mapTextures (s.AddTexture ext n p a b).state.m_mapTextures none
      (if (s.AddTexture ext n p a b).value = true then some n else none) ∧
    (s.AddTexture ext n p a b).bAsserted = false := by
  simp only [AddTexture]
  generalize (if a = true then TextureType.PIXEL else TextureType.BLENDED) = type
  split
  · exact ⟨StdMap.evolves_refl _, rfl⟩
  · split
    · exact ⟨StdMap.evolves_refl _, rfl⟩
    · exact ⟨StdMap.evolves_emplace _ _ _, rfl⟩

theorem addTextureFromMemory_evolves (s : AssetManager) (ext : Collaborators) (n : String) (d : List Nat) (l : Nat) (a b : Bool) :
    StdMap.Evolves s.m_mapTextures (s.AddTextureFromMemory ext n d l a b).state.m_mapTextures none
      (if (s.AddTextureFromMemory ext n d l a b).value = true then some n else none) ∧
    (s.AddTextureFromMemory ext n d l a b).bAsserted = false := by
  simp only [AddTextureFromMemory]
  split
  · exact ⟨StdMap.evolves_refl _, rfl⟩
  · split
    · exact ⟨StdMap.evolves_refl _, rfl⟩
    · exact ⟨StdMap.evolves_emplace _ _ _, rfl⟩

theorem addFont_evolves (s : AssetManager) (ext : Collaborators) (n p : String) (z : ℚ) :
    StdMap.Evolves s.m_mapFonts (s.AddFont ext n p z).state.m_mapFonts none
      (if (s.AddFont ext n p z).value = true then some n else none) ∧
    (s.AddFont ext n p z).bAsserted = false := by
  simp only [AddFont]
  split
  · exact ⟨StdMap.evolves_refl _, rfl⟩
  · split
    · exact ⟨StdMap.evolves_refl _, rfl⟩
    · exact ⟨StdMap.evolves_emplace _ _ _, rfl⟩

theorem addFontFromMemory_evolves (s : AssetManager) (ext : Collaborators) (n : String) (d : List Nat) (z : ℚ) :
    StdMap.Evolves s.m_mapFonts (s.AddFontFromMemory ext n d z).state.m_mapFonts none
      (if (s.AddFontFromMemory ext n d z).value = true then some n else none) ∧
    (s.AddFontFromMemory ext n d z).bAsserted = false := by
  simp only [AddFontFromMemory]
  split
  · exact ⟨StdMap.evolves_refl _, rfl⟩
  · split
    · exact ⟨StdMap.evolves_refl _, rfl⟩
    · exact ⟨StdMap.evolves_emplace _ _ _, rfl⟩

theorem addShader_evolves (s : AssetManager) (ext : Collaborators) (n v f : String) :
    StdMap.Evolves s.m_mapShader (s.AddShader ext n v f).state.m_mapShader none
      (if (s.AddShader ext n v f).value = true then some n else none) ∧
    (s.AddShader ext n v f).bAsserted = false := by
  simp only [AddShader]
  split
  · exact ⟨StdMap.evolves_refl _, rfl⟩
  · split
    · exact ⟨StdMap.evolves_refl _, rfl⟩
    · exact ⟨StdMap.evolves_emplace _ _ _, rfl⟩

theorem addShaderFromMemory_evolves (s : AssetManager) (ext : Collaborators) (n v f : String) :
    StdMap.Evolves s.m_mapShader (s.AddShaderFromMemory ext n v f).state.m_mapShader none
      (if (s.AddShaderFromMemory ext n v f).value = true then some n else none) ∧
    (s.AddShaderFromMemory ext n v f).bAsserted = false := by
  simp only [AddShaderFromMemory]
  split
  · exact ⟨StdMap.evolves_refl _, rfl⟩
  · exact ⟨StdMap.evolves_emplace _ _ _, rfl⟩

theorem addMusic_evolves (s : AssetManager) (ext : Collaborators) (n p : String) :
    StdMap.Evolves s.m_mapMusic (s.AddMusic ext n p).state.m_mapMusic none
      (if (s.AddMusic ext n p).value = true then some n else none) ∧
    (s.AddMusic ext n p).bAsserted = false := by
  simp only [AddMusic]
  split
  · exact ⟨StdMap.evolves_refl _, rfl⟩
  · split
    · exact ⟨StdMap.evolves_refl _, rfl⟩
    · simp only [make_shared, Option.isNone_some, Bool.false_eq_true, if_false]
      exact ⟨StdMap.evolves_emplace _ _ _, trivial⟩

theorem addSoundFx_evolves (s : AssetManager) (ext : Collaborators) (n p : String) :
    StdMap.Evolves s.m_mapSoundFx (s.AddSoundFx ext n p).state.m_mapSoundFx none
      (if (s.AddSoundFx ext n p).value = true then some n else none) ∧
    (s.AddSoundFx ext n p).bAsserted = false := by
  simp only [AddSoundFx]
  split
  · exact ⟨StdMap.evolves_refl _, rfl⟩
  · split
    · exact ⟨StdMap.evolves_refl _, rfl⟩
    · exact ⟨StdMap.evolves_emplace _ _ _, rfl⟩

theorem addPrefab_evolves (s : AssetManager) (n : String) (h : Option Prefab) :
    StdMap.Evolves s.m_mapPrefabs (s.AddPrefab n h).state.m_mapPrefabs none
      (if (s.AddPrefab n h).value = true then some n else none) ∧
    (s.AddPrefab n h).bAsserted = false := by
  simp only [AddPrefab]
  split
  · exact ⟨StdMap.evolves_refl _, rfl⟩
  · exact ⟨StdMap.evolves_emplace _ _ _, rfl⟩

/-- DeleteAsset with the prefab tag, seen from the prefab map: only the deleted name can
leave, and only when true is returned. -/
theorem deletePrefab_evolves (s : AssetManager) (ext : Collaborators) (n : String) :
    StdMap.Evolves s.m_mapPrefabs (s.DeleteAsset ext n .PREFAB).state.m_mapPrefabs
      (if (s.DeleteAsset ext n .PREFAB).value = true then some n else none) none ∧
    (s.DeleteAsset ext n .PREFAB).bAsserted = false := by
  cases hg : s.GetPrefab n with
  | none =>
    rw [deleteAsset_prefab_none s ext n hg]
    exact ⟨StdMap.evolves_refl _, rfl⟩
  | some p =>
    cases hd : ext.PrefabCreator_DeletePrefab p
    · rw [deleteAsset_prefab_fail s ext n p hg hd]
      exact ⟨StdMap.evolves_refl _, rfl⟩
    · rw [deleteAsset_prefab_done s ext n p hg hd]
      refine ⟨?_, rfl⟩
      have hE := StdMap.evolves_erase_if s.m_mapPrefabs n
      have hv : decide ((s.m_mapPrefabs.erase n).2 > 0) = s.m_mapPrefabs.contains n :=
        StdMap.filter_eq_length_pos s.m_mapPrefabs n
      simp only [hv]
      exact hE

end AssetManager

theorem StdMap.evolves_erase_if_flag {β : Type} (m : StdMap β) (n : String) :
    StdMap.Evolves m (m.erase_if (fun pair => decide (pair.1 = n))).1
      (if decide ((m.erase_if (fun pair => decide (pair.1 = n))).2 > 0) = true then some n
        else none) none := by
  have hv : decide ((m.erase_if (fun pair => decide (pair.1 = n))).2 > 0) = m.contains n :=
    StdMap.filter_eq_length_pos m n
  rw [hv]
  exact StdMap.evolves_erase_if m n

namespace AssetManager

/-- Outside the category an operation targets, every entry is as before. -/
theorem entry_of_sameOutside (c t : AssetType) (s r : AssetManager) (h : sameOutside c s r)
    (ht : t ≠ c) (N : String) : r.entry t N = s.entry t N := by
  obtain ⟨h1, h2, h3, h4, h5, h6⟩ := h
  have hc : c ≠ t := fun e => ht e.symm
  cases t
  · simp only [entry, h1 hc]
  · simp only [entry, h2 hc]
  · simp only [entry, h3 hc]
  · simp only [entry, h4 hc]
  · simp only [entry, h5 hc]
  · simp only [entry, h6 hc]

/-- The three facts about one name, for the category the operation targets. -/
theorem step_entry_own (s : AssetManager) (ext : Collaborators) (op : Op) (N : String) :
    (∀ h, s.entry op.category N = some h →
      ((s.step ext op).state.entry op.category N).isSome = true →
      (s.step ext op).state.entry op.category N = some h) ∧
    ((s.entry op.category N).isSome = true →
      (s.step ext op).state.entry op.category N = none →
      (s.step ext op).Returns true ∧
      (op = .DeleteAsset N op.category ∨ ∃ sNew, op = .ChangeAssetName N sNew op.category)) ∧
    (s.entry op.category N = none →
      ((s.step ext op).state.entry op.category N).isSome = true →
      (s.step ext op).Returns true ∧
      (op.isAddOf op.category N ∨ ∃ sOld, op = .ChangeAssetName sOld N op.category)) := by
  cases op with
  | AddTexture n p a b =>
    obtain ⟨hE, hb⟩ := addTexture_evolves s ext n p a b
    exact entry_facts Handle.texture _ _ _ _ N hE _ _ (fun h => by simp at h)
      (fun h => by
        obtain ⟨hv, hn⟩ := some_of_flag _ _ _ h
        exact ⟨⟨hb, hv⟩, Or.inl ⟨rfl, hn⟩⟩)
  | AddTextureFromMemory n d l a b =>
    obtain ⟨hE, hb⟩ := addTextureFromMemory_evolves s ext n d l a b
    exact entry_facts Handle.texture _ _ _ _ N hE _ _ (fun h => by simp at h)
      (fun h => by
        obtain ⟨hv, hn⟩ := some_of_flag _ _ _ h
        exact ⟨⟨hb, hv⟩, Or.inl ⟨rfl, hn⟩⟩)
  | AddFont n p z =>
    obtain ⟨hE, hb⟩ := addFont_evolves s ext n p z
    exact entry_facts Handle.font _ _ _ _ N hE _ _ (fun h => by simp at h)
      (fun h => by
        obtain ⟨hv, hn⟩ := some_of_flag _ _ _ h
        exact ⟨⟨hb, hv⟩, Or.inl ⟨rfl, hn⟩⟩)
  | AddFontFromMemory n d z =>
    obtain ⟨hE, hb⟩ := addFontFromMemory_evolves s ext n d z
    exact entry_facts Handle.font _ _ _ _ N hE _ _ (fun h => by simp at h)
      (fun h => by
        obtain ⟨hv, hn⟩ := some_of_flag _ _ _ h
        exact ⟨⟨hb, hv⟩, Or.inl ⟨rfl, hn⟩⟩)
  | AddShader n v f =>
    obtain ⟨hE, hb⟩ := addShader_evolves s ext n v f
    exact entry_facts Handle.shader _ _ _ _ N hE _ _ (fun h => by simp at h)
      (fun h => by
        obtain ⟨hv, hn⟩ := some_of_flag _ _ _ h
        exact ⟨⟨hb, hv⟩, Or.inl ⟨rfl, hn⟩⟩)
  | AddShaderFromMemory n v f =>
    obtain ⟨hE, hb⟩ := addShaderFromMemory_evolves s ext n v f
    exact entry_facts Handle.shader _ _ _ _ N hE _ _ (fun h => by simp at h)
      (fun h => by
        obtain ⟨hv, hn⟩ := some_of_flag _ _ _ h
        exact ⟨⟨hb, hv⟩, Or.inl ⟨rfl, hn⟩⟩)
  | AddMusic n p =>
    obtain ⟨hE, hb⟩ := addMusic_evolves s ext n p
    exact entry_facts Handle.music _ _ _ _ N hE _ _ (fun h => by simp at h)
      (fun h => by
        obtain ⟨hv, hn⟩ := some_of_flag _ _ _ h
        exact ⟨⟨hb, hv⟩, Or.inl ⟨rfl, hn⟩⟩)
  | AddSoundFx n p =>
    obtain ⟨hE, hb⟩ := addSoundFx_evolves s ext n p
    exact entry_facts Handle.soundFx _ _ _ _ N hE _ _ (fun h => by simp at h)
      (fun h => by
        obtain ⟨hv, hn⟩ := some_of_flag _ _ _ h
        exact ⟨⟨hb, hv⟩, Or.inl ⟨rfl, hn⟩⟩)
  | AddPrefab n p =>
    obtain ⟨hE, hb⟩ := addPrefab_evolves s n p
    exact entry_facts Handle.prefab _ _ _ _ N hE _ _ (fun h => by simp at h)
      (fun h => by
        obtain ⟨hv, hn⟩ := some_of_flag _ _ _ h
        exact ⟨⟨hb, hv⟩, Or.inl ⟨rfl, hn⟩⟩)
  | ChangeAssetName a b t =>
    cases t
    case TEXTURE =>
      exact entry_facts Handle.texture _ _ _ _ N (evolves_keyChange s.m_mapTextures a b) _ _
        (fun h => by
          obtain ⟨hv, hn⟩ := some_of_flag _ _ _ h
          exact ⟨⟨rfl, hv⟩, Or.inr ⟨b, by rw [hn]; rfl⟩⟩)
        (fun h => by
          obtain ⟨hv, hn⟩ := some_of_flag _ _ _ h
          exact ⟨⟨rfl, hv⟩, Or.inr ⟨a, by rw [hn]; rfl⟩⟩)
    case FONT =>
      exact entry_facts Handle.font _ _ _ _ N (evolves_keyChange s.m_mapFonts a b) _ _
        (fun h => by
          obtain ⟨hv, hn⟩ := some_of_flag _ _ _ h
          exact ⟨⟨rfl, hv⟩, Or.inr ⟨b, by rw [hn]; rfl⟩⟩)
        (fun h => by
          obtain ⟨hv, hn⟩ := some_of_flag _ _ _ h
          exact ⟨⟨rfl, hv⟩, Or.inr ⟨a, by rw [hn]; rfl⟩⟩)
    case MUSIC =>
      exact entry_facts Handle.music _ _ _ _ N (evolves_keyChange s.m_mapMusic a b) _ _
        (fun h => by
          obtain ⟨hv, hn⟩ := some_of_flag _ _ _ h
          exact ⟨⟨rfl, hv⟩, Or.inr ⟨b, by rw [hn]; rfl⟩⟩)
        (fun h => by
          obtain ⟨hv, hn⟩ := some_of_flag _ _ _ h
          exact ⟨⟨rfl, hv⟩, Or.inr ⟨a, by rw [hn]; rfl⟩⟩)
    case SOUNDFX =>
      exact entry_facts Handle.soundFx _ _ _ _ N (evolves_keyChange s.m_mapSoundFx a b) _ _
        (fun h => by
          obtain ⟨hv, hn⟩ := some_of_flag _ _ _ h
          exact ⟨⟨rfl, hv⟩, Or.inr ⟨b, by rw [hn]; rfl⟩⟩)
        (fun h => by
          obtain ⟨hv, hn⟩ := some_of_flag _ _ _ h
          exact ⟨⟨rfl, hv⟩, Or.inr ⟨a, by rw [hn]; rfl⟩⟩)
    case SHADER =>
      exact entry_facts Handle.shader _ _ _ _ N (StdMap.evolves_refl s.m_mapShader) _ _
        (fun h => by simp at h) (fun h => by simp at h)
    case PREFAB =>
      exact entry_facts Handle.prefab _ _ _ _ N (StdMap.evolves_refl s.m_mapPrefabs) _ _
        (fun h => by simp at h) (fun h => by simp at h)
  | DeleteAsset n t =>
    cases t
    case TEXTURE =>
      exact entry_facts Handle.texture _ _ _ _ N (StdMap.evolves_erase_if_flag s.m_mapTextures n) _ _
        (fun h => by
          obtain ⟨hv, hn⟩ := some_of_flag _ _ _ h
          exact ⟨⟨rfl, hv⟩, Or.inl (by rw [hn]; rfl)⟩)
        (fun h => by simp at h)
    case FONT =>
      exact entry_facts Handle.font _ _ _ _ N (StdMap.evolves_erase_if_flag s.m_mapFonts n) _ _
        (fun h => by
          obtain ⟨hv, hn⟩ := some_of_flag _ _ _ h
          exact ⟨⟨rfl, hv⟩, Or.inl (by rw [hn]; rfl)⟩)
        (fun h => by simp at h)
    case MUSIC =>
      exact entry_facts Handle.music _ _ _ _ N (StdMap.evolves_erase_if_flag s.m_mapMusic n) _ _
        (fun h => by
          obtain ⟨hv, hn⟩ := some_of_flag _ _ _ h
          exact ⟨⟨rfl, hv⟩, Or.inl (by rw [hn]; rfl)⟩)
        (fun h => by simp at h)
    case SOUNDFX =>
      exact entry_facts Handle.soundFx _ _ _ _ N (StdMap.evolves_erase_if_flag s.m_mapSoundFx n) _ _
        (fun h => by
          obtain ⟨hv, hn⟩ := some_of_flag _ _ _ h
          exact ⟨⟨rfl, hv⟩, Or.inl (by rw [hn]; rfl)⟩)
        (fun h => by simp at h)
    case SHADER =>
      exact entry_facts Handle.shader _ _ _ _ N (StdMap.evolves_refl s.m_mapShader) _ _
        (fun h => by simp at h) (fun h => by simp at h)
    case PREFAB =>
      obtain ⟨hE, hb⟩ := deletePrefab_evolves s ext n
      exact entry_facts Handle.prefab _ _ _ _ N hE _ _
        (fun h => by
          obtain ⟨hv, hn⟩ := some_of_flag _ _ _ h
          exact ⟨⟨hb, hv⟩, Or.inl (by rw [hn]; rfl)⟩)
        (fun h => by simp at h)

end AssetManager

namespace AssetManager

/-- C18: a stored handle is never silently replaced. For every state, every single operation,
every category `t` and name `N`: if `N` maps to handle `h` in `t` before the operation and is
still present in `t` after it, it still maps to `h`; if `N` was present and is absent
afterwards, the operation returned true and was DeleteAsset of `N` in `t` or ChangeAssetName
away from `N` in `t`; if `N` was absent and is present afterwards, the operation returned true
and was an Add of `N` to `t` or ChangeAssetName to `N` in `t`. As this holds from every state,
it holds at each step of every sequence of operations. -/
theorem handle_never_replaced (s : AssetManager) (ext : Collaborators) (op : Op)
    (t : AssetType) (N : String) :
    (∀ h, s.entry t N = some h → ((s.step ext op).state.entry t N).isSome = true →
      (s.step ext op).state.entry t N = some h) ∧
    ((s.entry t N).isSome = true → (s.step ext op).state.entry t N = none →
      (s.step ext op).Returns true ∧
      (op = .DeleteAsset N t ∨ ∃ sNew, op = .ChangeAssetName N sNew t)) ∧
    (s.entry t N = none → ((s.step ext op).state.entry t N).isSome = true →
      (s.step ext op).Returns true ∧
      (op.isAddOf t N ∨ ∃ sOld, op = .ChangeAssetName sOld N t)) := by
  by_cases ht : t = op.category
  · subst ht
    exact step_entry_own s ext op N
  · have hframe := entry_of_sameOutside op.category t s _ (step_sameOutside s ext op) ht N
    rw [hframe]
    refine ⟨fun h hh _ => hh, fun hs hn => ?_, fun hn hs => ?_⟩
    · rw [hn] at hs
      exact absurd hs (by simp)
    · rw [hn] at hs
      exact absurd hs (by simp)

/-- Witness of C18 on a manager with the textures "hero" and "tiles": deleting "hero" keeps the
handle of "tiles"; "hero" leaves, and the operation is recognised as the successful delete. -/
theorem handle_never_replaced_witness :
    (twoTextures.step succeeding (.DeleteAsset "hero" .TEXTURE)).state.entry .TEXTURE "tiles" =
      some (Handle.texture (some ⟨2, .BLENDED, true, false⟩)) ∧
    ((twoTextures.step succeeding (.DeleteAsset "hero" .TEXTURE)).Returns true ∧
      (Op.DeleteAsset "hero" .TEXTURE = .DeleteAsset "hero" .TEXTURE ∨
        ∃ sNew, Op.DeleteAsset "hero" .TEXTURE = .ChangeAssetName "hero" sNew .TEXTURE)) :=
  ⟨(handle_never_replaced twoTextures succeeding (.DeleteAsset "hero" .TEXTURE)
      .TEXTURE "tiles").1 _ rfl (by decide),
    (handle_never_replaced twoTextures succeeding (.DeleteAsset "hero" .TEXTURE)
      .TEXTURE "hero").2.1 (by decide) rfl⟩

end AssetManager

/-! ## The switchboard, tag by tag -/

namespace AssetManager

end AssetManager

namespace AssetManager

end AssetManager

end SCION_RESOURCES
